import Mathlib

set_option linter.unusedSectionVars false

/-!
# ahBakeTransform: colour transform and quantisation pipeline

A shallow embedding of `src/ahBakeTransform.cpp`.

Numeric model.  C `float`/`double` values are idealised as elements of an
ordered field `K` with a floor function (`ℚ` for evaluation, `ℝ` for the
statements that involve `pow`); in this exact model the rounding of
floating-point operations, NaN and infinities do not occur.  The C library
function `pow` is a parameter `pow : K → K → K`; theorems about the power
branches of the transfer curves instantiate it with `Real.rpow`.

Floating-point overflow.  The tone map divides two quadratics, which leave the
range of `float` for inputs from about 1.8e19.  Section `FloatOverflow` gives
`RRTAndODTFit` and `ACESFitted` a second embedding over values that are finite,
infinite or NaN, each operation overflowing to an infinity from the overflow
magnitude of its format; finite results are still exact (no rounding).

Machine integers.  `int` is 32 bits wide.  A float-to-int conversion whose
truncated value does not fit is undefined behaviour in C++; the model keeps
the function total and returns the value `outOfRange r` chosen by the target
(the x86-64 conversion instructions produce `INT_MIN = -2147483648`).
In `main` the `int` product `dst_width * dst_height * 4` is computed modulo 2^32
(`wrapInt32`), and a run whose product overflowed does not reach `SaveImage`; in
`SaveImage` the same product is therefore computed without overflow.
-/

section Embedding

variable {K : Type} [LinearOrderedField K] [FloorRing K]

/-- Modelled from the spec: `Vector3f` of the header `geometry.h`, which is not
part of the sources.  An ordered triple of floating-point components whose
arithmetic operators act per channel, a scalar operand being applied to each
of the three components. -/
structure Vector3f (K : Type) where
  x : K
  y : K
  z : K
deriving DecidableEq, Repr

namespace Vector3f

/-- Modelled from the spec: `operator[]` of `geometry.h`, component `0`, `1`, `2`
of the triple being `x`, `y`, `z`. -/
def get (v : Vector3f K) (k : ℕ) : K :=
  if k = 0 then v.x else if k = 1 then v.y else v.z

/-- Modelled from the spec: per-channel product `v * w` of `geometry.h`. -/
def mul (v w : Vector3f K) : Vector3f K := ⟨v.x * w.x, v.y * w.y, v.z * w.z⟩

/-- Modelled from the spec: `v + s` of `geometry.h` for a scalar `s`, per channel. -/
def addScalar (v : Vector3f K) (s : K) : Vector3f K := ⟨v.x + s, v.y + s, v.z + s⟩

/-- Modelled from the spec: `v - s` of `geometry.h` for a scalar `s`, per channel. -/
def subScalar (v : Vector3f K) (s : K) : Vector3f K := ⟨v.x - s, v.y - s, v.z - s⟩

/-- Modelled from the spec: `s * v` of `geometry.h` for a scalar `s`, per channel. -/
def scale (s : K) (v : Vector3f K) : Vector3f K := ⟨s * v.x, s * v.y, s * v.z⟩

end Vector3f

/-- Local `a` of `RRTAndODTFit`: `v * (v + 0.0245786f) - 0.000090537f`. -/
def RRTAndODTFit_a (v : Vector3f K) : Vector3f K :=
  (v.mul (v.addScalar 0.0245786)).subScalar 0.000090537

/-- Local `b` of `RRTAndODTFit`: `v * (0.983729f * v + 0.4329510f) + 0.238081f`. -/
def RRTAndODTFit_b (v : Vector3f K) : Vector3f K :=
  (v.mul ((Vector3f.scale 0.983729 v).addScalar 0.4329510)).addScalar 0.238081

/-- Rational tone-curve fit, `RRTAndODTFit` of the source. -/
def RRTAndODTFit (v : Vector3f K) : Vector3f K :=
  let a := RRTAndODTFit_a v
  let b := RRTAndODTFit_b v
  ⟨a.x / b.x, a.y / b.y, a.z / b.z⟩

/-- Lines 62-64 of `ACESFitted`: the three assignments of the input stage, each
one overwriting a component of `color` before the next statement reads it. -/
def ACESFitted_in (color : Vector3f K) : Vector3f K :=
  let color := { color with x := color.x * 0.59719 + color.y * 0.35458 + color.z * 0.04823 }
  let color := { color with y := color.x * 0.07600 + color.y * 0.90834 + color.z * 0.01566 }
  let color := { color with z := color.x * 0.02840 + color.y * 0.13383 + color.z * 0.83777 }
  color

/-- Lines 68-70 of `ACESFitted`: the three assignments of the output stage. -/
def ACESFitted_out (color : Vector3f K) : Vector3f K :=
  let color := { color with x := color.x * 1.60475 + color.y * -0.53108 + color.z * -0.07367 }
  let color := { color with y := color.x * -0.10208 + color.y * 1.10813 + color.z * -0.00605 }
  let color := { color with z := color.x * -0.00327 + color.y * -0.07276 + color.z * 1.07602 }
  color

/-- Fitted ACES tone map, `ACESFitted` of the source. -/
def ACESFitted (color : Vector3f K) : Vector3f K :=
  let color := ACESFitted_in color
  let color := RRTAndODTFit color
  let color := ACESFitted_out color
  color

/-- Truncation toward zero of a value, the integer a float-to-int conversion
yields when it is representable. -/
def truncToInt (r : K) : ℤ := if 0 ≤ r then ⌊r⌋ else ⌈r⌉

/-- Conversion `static_cast<int>(r)` to a 32-bit `int`: truncation toward zero
when the truncated value fits, and the target's value `outOfRange r` when it
does not (undefined behaviour in C++). -/
def static_cast_int (outOfRange : K → ℤ) (r : K) : ℤ :=
  if -2147483648 ≤ truncToInt r ∧ truncToInt r ≤ 2147483647 then truncToInt r
  else outOfRange r

/-- Quantiser `FloatToUnsignedChar` of the source. -/
def FloatToUnsignedChar (outOfRange : K → ℤ) (f : K) : ℕ :=
  let i := static_cast_int outOfRange (255 * f)
  let i := if i > 255 then 255 else i
  let i := if i < 0 then 0 else i
  (i % 256).toNat

/-- Transfer curve `ApplysRGBCurve` of the source. -/
def ApplysRGBCurve (pow : K → K → K) (x : K) : K :=
  if x < 0.0031308 then 12.92 * x else 1.055 * pow x (1.0 / 2.4) - 0.055

/-- Transfer curve `ApplyRec709Curve` of the source. -/
def ApplyRec709Curve (pow : K → K → K) (x : K) : K :=
  if x < 0.0181 then 4.5 * x else 1.0993 * pow x 0.45 - 0.0993

/-- Counting loop `for (size_t i = 0; i < n; i++) body`, as a state transformer. -/
def forLoop {σ : Type} (n : ℕ) (body : ℕ → σ → σ) (s : σ) : σ :=
  match n with
  | 0 => s
  | m + 1 => body m (forLoop m body s)

/-- Read `rgba[j]` of the input buffer. -/
def readFloat (rgba : List K) (j : ℕ) : K := rgba.getD j 0

/-- Body shared by the six loops of `SaveImage`: the four stores of pixel `i`,
the colour bytes being `FloatToUnsignedChar (f k)` for channel `k`. -/
def storePixel (outOfRange : K → ℤ) (f : ℕ → K) (i : ℕ) (dst : List ℕ) : List ℕ :=
  let dst := dst.set (i * 4 + 0) (FloatToUnsignedChar outOfRange (f 0))
  let dst := dst.set (i * 4 + 1) (FloatToUnsignedChar outOfRange (f 1))
  let dst := dst.set (i * 4 + 2) (FloatToUnsignedChar outOfRange (f 2))
  let dst := dst.set (i * 4 + 3) 255
  dst

/-- The triple `Vector3f(rgba[i*4+0], rgba[i*4+1], rgba[i*4+2])` of pixel `i`. -/
def pixelTriple (rgba : List K) (i : ℕ) : Vector3f K :=
  ⟨readFloat rgba (i * 4 + 0), readFloat rgba (i * 4 + 1), readFloat rgba (i * 4 + 2)⟩

/-- Lines 96-164 of `SaveImage`: the byte buffer `dst` after the six
`if (colorspace == k)` blocks. -/
def SaveImage_dst (outOfRange : K → ℤ) (pow : K → K → K) (rgba : List K)
    (colorspace : ℤ) (width height : ℤ) : List ℕ :=
  let dst : List ℕ := List.replicate (width * height * 4).toNat 0
  let n : ℕ := (width * height).toNat
  let dst :=
    if colorspace = 0 then
      forLoop n (fun i dst =>
        storePixel outOfRange (fun k => readFloat rgba (i * 4 + k)) i dst) dst
    else dst
  let dst :=
    if colorspace = 1 then
      forLoop n (fun i dst =>
        storePixel outOfRange (fun k => ApplysRGBCurve pow (readFloat rgba (i * 4 + k))) i dst) dst
    else dst
  let dst :=
    if colorspace = 2 then
      forLoop n (fun i dst =>
        storePixel outOfRange (fun k => ApplyRec709Curve pow (readFloat rgba (i * 4 + k))) i dst) dst
    else dst
  let dst :=
    if colorspace = 3 then
      forLoop n (fun i dst =>
        storePixel outOfRange
          (fun k => ApplysRGBCurve pow ((ACESFitted (pixelTriple rgba i)).get k)) i dst) dst
    else dst
  let dst :=
    if colorspace = 4 then
      forLoop n (fun i dst =>
        storePixel outOfRange
          (fun k => ApplysRGBCurve pow ((ACESFitted (pixelTriple rgba i)).get k)) i dst) dst
    else dst
  let dst :=
    if colorspace = 5 then
      forLoop n (fun i dst =>
        storePixel outOfRange
          (fun k => ApplysRGBCurve pow ((ACESFitted (pixelTriple rgba i)).get k)) i dst) dst
    else dst
  dst

end Embedding

section Program

variable {K : Type} [LinearOrderedField K] [FloorRing K]

/-- One call of the external encoder `stbi_write_png(filename, w, h, comp, data,
stride_in_bytes)`, with the bytes of the buffer it is handed. -/
structure PngCall where
  filename : String
  w : ℤ
  h : ℤ
  comp : ℤ
  data : List ℕ
  stride : ℤ
deriving DecidableEq, Repr

/-- Function `SaveImage` of the source: the `bool` it returns, and the calls it makes to
the external encoder `stbi_write_png`, whose return value is a parameter. -/
def SaveImage (stbi_write_png : PngCall → ℤ) (outOfRange : K → ℤ) (pow : K → K → K)
    (filename : String) (rgba : List K) (colorspace : ℤ) (width height : ℤ) :
    Bool × List PngCall :=
  let dst := SaveImage_dst outOfRange pow rgba colorspace width height
  let call : PngCall := ⟨filename, width, height, 4, dst, width * 4⟩
  let image := stbi_write_png call
  (decide (image > 0), [call])

/-- Result of the external decoder `LoadEXR`: its return code and the values it
stores through its output parameters. -/
structure ExrImage (K : Type) where
  image : ℤ
  rgba : List K
  width : ℤ
  height : ℤ

/-- How a run of `main` ends. -/
inductive Outcome where
  | exited (code : ℤ)
  | aborted
deriving DecidableEq, Repr

/-- A run of `main`: how it ends and the calls made to the external encoder. -/
structure MainResult where
  outcome : Outcome
  pngCalls : List PngCall
deriving DecidableEq, Repr

/-- Lines 186-189 of `main`: the selector, 1 unless a fourth argument is given. -/
def main_colorspace (atoi : String → ℤ) (argv : List String) : ℤ :=
  if argv.length > 3 then atoi (argv.getD 3 "") else 1

/-- Lines 191-194 of `main`: the resize factor, 1 unless a fifth argument is given. -/
def main_resize_factor (atof : String → K) (argv : List String) : K :=
  if argv.length > 4 then atof (argv.getD 4 "") else 1.0

/-- A value as a 32-bit two's-complement `int`: the representative of `z` modulo
2^32 in the range `INT_MIN .. INT_MAX`.  It is what the target leaves in an `int`
when a signed operation overflows (undefined behaviour in C++). -/
def wrapInt32 (z : ℤ) : ℤ := (z + 2147483648) % 4294967296 - 2147483648

/-- The initialisation `int d = n / resize_factor` of lines 208-209: a float
division converted to `int`.  A division by zero yields an infinity or a NaN, whose
conversion is out of range; the value stored is a 32-bit `int`. -/
def divToInt (outOfRange : K → ℤ) (n : ℤ) (resize_factor : K) : ℤ :=
  wrapInt32
    (if resize_factor = 0 then outOfRange ((n : K) / resize_factor)
     else static_cast_int outOfRange ((n : K) / resize_factor))

/-- Line 208 of `main`: `int dst_width = width / resize_factor`. -/
def main_dst_width (atof : String → K) (LoadEXR : String → ExrImage K) (outOfRange : K → ℤ)
    (argv : List String) : ℤ :=
  divToInt outOfRange (LoadEXR (argv.getD 1 "")).width (main_resize_factor atof argv)

/-- Line 209 of `main`: `int dst_height = height / resize_factor`. -/
def main_dst_height (atof : String → K) (LoadEXR : String → ExrImage K) (outOfRange : K → ℤ)
    (argv : List String) : ℤ :=
  divToInt outOfRange (LoadEXR (argv.getD 1 "")).height (main_resize_factor atof argv)

namespace ahBakeTransform

/-- Function `main` of the source.  `argv` holds the `argc` arguments; the library
functions `atoi` and `atof`, the decoder `LoadEXR`, the resampler
`stbir_resize_float` (its return code and the contents it leaves in `buf`) and the
encoder `stbi_write_png` are parameters.  The length of `buf` is the 32-bit
`int` product `dst_width * dst_height * 4`.  An uncaught exception (a vector of
negative length, `buf.at(0)` of an empty vector) and a failed `assert` abort the
run; so does a product that wrapped to a positive value, which leaves `buf` at
least 2^32 floats shorter than the image the resampler writes into it. -/
def main (atoi : String → ℤ) (atof : String → K) (LoadEXR : String → ExrImage K)
    (stbir_resize_float : List K → ℤ → ℤ → ℤ → ℤ → ℤ × List K)
    (stbi_write_png : PngCall → ℤ) (outOfRange : K → ℤ) (pow : K → K → K)
    (argv : List String) : MainResult :=
  if argv.length < 3 then ⟨Outcome.exited (-1), []⟩
  else
    let colorspace := main_colorspace atoi argv
    let exr := LoadEXR (argv.getD 1 "")
    if exr.image ≠ 0 then ⟨Outcome.exited (-1), []⟩
    else
      let dst_width := main_dst_width atof LoadEXR outOfRange argv
      let dst_height := main_dst_height atof LoadEXR outOfRange argv
      let buf_size := wrapInt32 (wrapInt32 (dst_width * dst_height) * 4)
      if buf_size ≤ 0 then ⟨Outcome.aborted, []⟩
      else if buf_size ≠ dst_width * dst_height * 4 then ⟨Outcome.aborted, []⟩
      else
        let resized := stbir_resize_float exr.rgba exr.width exr.height dst_width dst_height
        if resized.1 = 0 then ⟨Outcome.aborted, []⟩
        else
          let saved := SaveImage stbi_write_png outOfRange pow (argv.getD 2 "") resized.2
            colorspace dst_width dst_height
          ⟨Outcome.exited (if saved.1 then 0 else -1), saved.2⟩

end ahBakeTransform

end Program

section SpecDefinitions

variable {K : Type} [LinearOrderedField K] [FloorRing K]

/-- Dot product of a matrix row with a triple. -/
def dot3 (r c : Vector3f K) : K := r.x * c.x + r.y * c.y + r.z * c.z

/-- Matrix-vector product with rows `r1`, `r2`, `r3`: every component is the dot
product of a row with the unmodified input `c`. -/
def matVec (r1 r2 r3 c : Vector3f K) : Vector3f K := ⟨dot3 r1 c, dot3 r2 c, dot3 r3 c⟩

/-- The tone map as the specification words it, `M_out · RRTAndODTFit (M_in · c)`
with true matrix-vector products.  This follows the specification, not the source;
it is the reference `ACESFitted` is compared with. -/
def ACESFitted_matrix (c : Vector3f K) : Vector3f K :=
  matVec ⟨1.60475, -0.53108, -0.07367⟩ ⟨-0.10208, 1.10813, -0.00605⟩
    ⟨-0.00327, -0.07276, 1.07602⟩
    (RRTAndODTFit
      (matVec ⟨0.59719, 0.35458, 0.04823⟩ ⟨0.07600, 0.90834, 0.01566⟩
        ⟨0.02840, 0.13383, 0.83777⟩ c))

/-- Byte that the loop body `storePixel` leaves at offset `c` of its pixel. -/
def pixelByte (outOfRange : K → ℤ) (f : ℕ → K) (c : ℕ) : ℕ :=
  if c = 3 then 255 else FloatToUnsignedChar outOfRange (f c)

/-- The out-of-range conversion result of the x86-64 conversion instructions,
`INT_MIN` whatever the operand. -/
def x86OutOfRange : K → ℤ := fun _ => -2147483648

/-- Round-to-nearest quantisation in the words of the specification,
`min(255, max(0, round(255·x)))`; the reference the truncating quantiser
`FloatToUnsignedChar` is compared with. -/
def roundQuantise (x : K) : ℤ := min 255 (max 0 (round (255 * x)))

/-- A matrix stage as a sequential in-place update, in the words of the
specification: `x' = r1·(x, y, z)`, `y' = r2·(x', y, z)`, `z' = r3·(x', y', z)`. -/
def sequentialStage (r1 r2 r3 c : Vector3f K) : Vector3f K :=
  let x' := dot3 r1 c
  let y' := dot3 r2 ⟨x', c.y, c.z⟩
  let z' := dot3 r3 ⟨x', y', c.z⟩
  ⟨x', y', z'⟩

end SpecDefinitions

section FloatOverflow

/-- A binary floating-point value as far as overflow is concerned: a finite value,
an infinity or a NaN.  A finite value is an exact rational: the rounding of finite
results is not modelled, and zero carries no sign. -/
inductive IEEE where
  | fin (q : ℚ)
  | pinf
  | ninf
  | nan
deriving DecidableEq, Repr

namespace IEEE

/-- Magnitude from which a binary32 result overflows to an infinity,
`2^128 − 2^103` (`FLT_MAX` plus half a unit in the last place). -/
def FLT_OVERFLOW : ℚ := 340282356779733661637539395458142568448

/-- Magnitude from which a binary64 result overflows to an infinity,
`2^1024 − 2^970`. -/
def DBL_OVERFLOW : ℚ := 2 ^ 1024 - 2 ^ 970

/-- Result of an operation whose exact value is `q`, in a format that overflows
from the magnitude `T`. -/
def ofExact (T : ℚ) (q : ℚ) : IEEE :=
  if T ≤ q then pinf else if q ≤ -T then ninf else fin q

/-- Negation. -/
def neg : IEEE → IEEE
  | fin q => fin (-q)
  | pinf => ninf
  | ninf => pinf
  | nan => nan

/-- Addition: `∞ + (−∞)` is a NaN. -/
def add (T : ℚ) : IEEE → IEEE → IEEE
  | fin a, fin b => ofExact T (a + b)
  | nan, _ => nan
  | _, nan => nan
  | pinf, ninf => nan
  | ninf, pinf => nan
  | pinf, _ => pinf
  | _, pinf => pinf
  | ninf, _ => ninf
  | _, ninf => ninf

/-- Subtraction. -/
def sub (T : ℚ) (a b : IEEE) : IEEE := add T a (neg b)

/-- Multiplication: `0 · ∞` is a NaN. -/
def mul (T : ℚ) : IEEE → IEEE → IEEE
  | fin a, fin b => ofExact T (a * b)
  | nan, _ => nan
  | _, nan => nan
  | pinf, fin b => if b = 0 then nan else if 0 < b then pinf else ninf
  | ninf, fin b => if b = 0 then nan else if 0 < b then ninf else pinf
  | fin a, pinf => if a = 0 then nan else if 0 < a then pinf else ninf
  | fin a, ninf => if a = 0 then nan else if 0 < a then ninf else pinf
  | pinf, pinf => pinf
  | ninf, ninf => pinf
  | pinf, ninf => ninf
  | ninf, pinf => ninf

/-- Division: `0 / 0` and `∞ / ∞` are NaNs, a non-zero value over zero is an
infinity. -/
def div (T : ℚ) : IEEE → IEEE → IEEE
  | fin a, fin b =>
    if b = 0 then (if a = 0 then nan else if 0 < a then pinf else ninf)
    else ofExact T (a / b)
  | nan, _ => nan
  | _, nan => nan
  | fin _, pinf => fin 0
  | fin _, ninf => fin 0
  | pinf, fin b => if 0 ≤ b then pinf else ninf
  | ninf, fin b => if 0 ≤ b then ninf else pinf
  | pinf, pinf => nan
  | pinf, ninf => nan
  | ninf, pinf => nan
  | ninf, ninf => nan

/-- Conversion of a `double` to `float`. -/
def toFloat : IEEE → IEEE
  | fin q => ofExact FLT_OVERFLOW q
  | pinf => pinf
  | ninf => ninf
  | nan => nan

/-- Comparison `a ≤ b`, false when an operand is a NaN. -/
def le : IEEE → IEEE → Prop
  | fin a, fin b => a ≤ b
  | nan, _ => False
  | _, nan => False
  | _, pinf => True
  | ninf, _ => True
  | _, _ => False

end IEEE

/-- A triple of finite values. -/
def finTriple (v : Vector3f ℚ) : Vector3f IEEE := ⟨IEEE.fin v.x, IEEE.fin v.y, IEEE.fin v.z⟩

/-- One channel of the local `a` of `RRTAndODTFit`, in `float` arithmetic:
`v * (v + 0.0245786f) - 0.000090537f`. -/
def RRTAndODTFit_a_f32 (v : IEEE) : IEEE :=
  IEEE.sub IEEE.FLT_OVERFLOW
    (IEEE.mul IEEE.FLT_OVERFLOW v (IEEE.add IEEE.FLT_OVERFLOW v (IEEE.fin 0.0245786)))
    (IEEE.fin 0.000090537)

/-- One channel of the local `b` of `RRTAndODTFit`, in `float` arithmetic:
`v * (0.983729f * v + 0.4329510f) + 0.238081f`. -/
def RRTAndODTFit_b_f32 (v : IEEE) : IEEE :=
  IEEE.add IEEE.FLT_OVERFLOW
    (IEEE.mul IEEE.FLT_OVERFLOW v
      (IEEE.add IEEE.FLT_OVERFLOW (IEEE.mul IEEE.FLT_OVERFLOW (IEEE.fin 0.983729) v)
        (IEEE.fin 0.4329510)))
    (IEEE.fin 0.238081)

/-- Function `RRTAndODTFit` of the source in `float` arithmetic with overflow. -/
def RRTAndODTFit_f32 (v : Vector3f IEEE) : Vector3f IEEE :=
  ⟨IEEE.div IEEE.FLT_OVERFLOW (RRTAndODTFit_a_f32 v.x) (RRTAndODTFit_b_f32 v.x),
   IEEE.div IEEE.FLT_OVERFLOW (RRTAndODTFit_a_f32 v.y) (RRTAndODTFit_b_f32 v.y),
   IEEE.div IEEE.FLT_OVERFLOW (RRTAndODTFit_a_f32 v.z) (RRTAndODTFit_b_f32 v.z)⟩

/-- One assignment of a matrix stage of `ACESFitted`, `x * a + y * b + z * c` with
`double` constants: the `float` components are promoted, the expression is
evaluated in `double` and the result converted to `float` by the assignment. -/
def rowAssign_f32 (x y z : IEEE) (a b c : ℚ) : IEEE :=
  IEEE.toFloat
    (IEEE.add IEEE.DBL_OVERFLOW
      (IEEE.add IEEE.DBL_OVERFLOW (IEEE.mul IEEE.DBL_OVERFLOW x (IEEE.fin a))
        (IEEE.mul IEEE.DBL_OVERFLOW y (IEEE.fin b)))
      (IEEE.mul IEEE.DBL_OVERFLOW z (IEEE.fin c)))

/-- Lines 62-64 of `ACESFitted` in floating-point arithmetic with overflow. -/
def ACESFitted_in_f32 (color : Vector3f IEEE) : Vector3f IEEE :=
  let color := { color with x := rowAssign_f32 color.x color.y color.z 0.59719 0.35458 0.04823 }
  let color := { color with y := rowAssign_f32 color.x color.y color.z 0.07600 0.90834 0.01566 }
  let color := { color with z := rowAssign_f32 color.x color.y color.z 0.02840 0.13383 0.83777 }
  color

/-- Lines 68-70 of `ACESFitted` in floating-point arithmetic with overflow. -/
def ACESFitted_out_f32 (color : Vector3f IEEE) : Vector3f IEEE :=
  let color := { color with x := rowAssign_f32 color.x color.y color.z 1.60475 (-0.53108) (-0.07367) }
  let color := { color with y := rowAssign_f32 color.x color.y color.z (-0.10208) 1.10813 (-0.00605) }
  let color := { color with z := rowAssign_f32 color.x color.y color.z (-0.00327) (-0.07276) 1.07602 }
  color

/-- Function `ACESFitted` of the source in floating-point arithmetic with
overflow. -/
def ACESFitted_f32 (color : Vector3f IEEE) : Vector3f IEEE :=
  let color := ACESFitted_in_f32 color
  let color := RRTAndODTFit_f32 color
  let color := ACESFitted_out_f32 color
  color

end FloatOverflow

section Quantiser

variable {K : Type} [LinearOrderedField K] [FloorRing K]

theorem FloatToUnsignedChar_le (oor : K → ℤ) (f : K) : FloatToUnsignedChar oor f ≤ 255 := by
  unfold FloatToUnsignedChar
  simp only []
  split_ifs <;> omega

/-- For a conversion that fits the `int`, the quantiser clamps the truncated value. -/
theorem FloatToUnsignedChar_of_fits (oor : K → ℤ) (f : K)
    (hlo : -2147483648 ≤ truncToInt (255 * f)) (hhi : truncToInt (255 * f) ≤ 2147483647) :
    (FloatToUnsignedChar oor f : ℤ) = min 255 (max 0 (truncToInt (255 * f))) := by
  unfold FloatToUnsignedChar static_cast_int
  simp only [hlo, hhi, and_self, if_true]
  split_ifs <;> omega

end Quantiser

section LoopInvariant

variable {K : Type} [LinearOrderedField K] [FloorRing K]

theorem storePixel_length (oor : K → ℤ) (f : ℕ → K) (i : ℕ) (dst : List ℕ) :
    (storePixel oor f i dst).length = dst.length := by
  simp [storePixel]

theorem storePixel_getElem?_of_mem (oor : K → ℤ) (f : ℕ → K) (i c : ℕ) (dst : List ℕ)
    (hc : c < 4) (hlen : i * 4 + 3 < dst.length) :
    (storePixel oor f i dst)[i * 4 + c]? = some (pixelByte oor f c) := by
  have h4 : c = 0 ∨ c = 1 ∨ c = 2 ∨ c = 3 := by omega
  rcases h4 with rfl | rfl | rfl | rfl <;>
    simp [storePixel, pixelByte, List.getElem?_set] <;> omega

theorem storePixel_getElem?_of_not_mem (oor : K → ℤ) (f : ℕ → K) (i j : ℕ) (dst : List ℕ)
    (hj : j < i * 4 ∨ i * 4 + 4 ≤ j) :
    (storePixel oor f i dst)[j]? = dst[j]? := by
  have h0 : i * 4 + 0 ≠ j := by omega
  have h1 : i * 4 + 1 ≠ j := by omega
  have h2 : i * 4 + 2 ≠ j := by omega
  have h3 : i * 4 + 3 ≠ j := by omega
  simp only [storePixel, List.getElem?_set_ne h0, List.getElem?_set_ne h1,
    List.getElem?_set_ne h2, List.getElem?_set_ne h3]

theorem forLoop_storePixel_length (oor : K → ℤ) (g : ℕ → ℕ → K) (n : ℕ) (dst : List ℕ) :
    (forLoop n (fun i d => storePixel oor (g i) i d) dst).length = dst.length := by
  induction n with
  | zero => rfl
  | succ m ih => simp only [forLoop, storePixel_length, ih]

/-- Loop invariant of the six loops of `SaveImage`: after `n` iterations every
byte of the first `n` pixels holds what the body stored for its pixel. -/
theorem forLoop_storePixel_getElem? (oor : K → ℤ) (g : ℕ → ℕ → K) (n : ℕ) (dst : List ℕ)
    (hlen : n * 4 ≤ dst.length) (i c : ℕ) (hi : i < n) (hc : c < 4) :
    (forLoop n (fun i d => storePixel oor (g i) i d) dst)[i * 4 + c]?
      = some (pixelByte oor (g i) c) := by
  induction n with
  | zero => omega
  | succ m ih =>
    simp only [forLoop]
    by_cases him : i = m
    · subst him
      apply storePixel_getElem?_of_mem _ _ _ _ _ hc
      rw [forLoop_storePixel_length]; omega
    · rw [storePixel_getElem?_of_not_mem _ _ _ _ _ (by omega)]
      exact ih (by omega) (by omega)

/-- Pixel count and buffer size of `SaveImage` for non-negative dimensions. -/
theorem toNat_dims (width height : ℕ) :
    ((width : ℤ) * (height : ℤ)).toNat = width * height ∧
    ((width : ℤ) * (height : ℤ) * 4).toNat = width * height * 4 := by
  constructor
  · rw [← Nat.cast_mul, Int.toNat_natCast]
  · have : ((width : ℤ) * (height : ℤ) * 4) = ((width * height * 4 : ℕ) : ℤ) := by push_cast; ring
    rw [this, Int.toNat_natCast]

/-- In each of the six modes `SaveImage` leaves in every byte of every pixel the
value stored by the loop of that mode. -/
theorem SaveImage_dst_getElem? (oor : K → ℤ) (pow : K → K → K) (rgba : List K)
    (width height i c : ℕ) (hi : i < width * height) (hc : c < 4) :
    (SaveImage_dst oor pow rgba 0 width height)[i * 4 + c]?
        = some (pixelByte oor (fun k => readFloat rgba (i * 4 + k)) c) ∧
    (SaveImage_dst oor pow rgba 1 width height)[i * 4 + c]?
        = some (pixelByte oor (fun k => ApplysRGBCurve pow (readFloat rgba (i * 4 + k))) c) ∧
    (SaveImage_dst oor pow rgba 2 width height)[i * 4 + c]?
        = some (pixelByte oor (fun k => ApplyRec709Curve pow (readFloat rgba (i * 4 + k))) c) ∧
    (SaveImage_dst oor pow rgba 3 width height)[i * 4 + c]?
        = some (pixelByte oor
            (fun k => ApplysRGBCurve pow ((ACESFitted (pixelTriple rgba i)).get k)) c) ∧
    (SaveImage_dst oor pow rgba 4 width height)[i * 4 + c]?
        = some (pixelByte oor
            (fun k => ApplysRGBCurve pow ((ACESFitted (pixelTriple rgba i)).get k)) c) ∧
    (SaveImage_dst oor pow rgba 5 width height)[i * 4 + c]?
        = some (pixelByte oor
            (fun k => ApplysRGBCurve pow ((ACESFitted (pixelTriple rgba i)).get k)) c) := by
  obtain ⟨h1, h2⟩ := toNat_dims width height
  have hl : (width * height) * 4 ≤ (List.replicate (width * height * 4) (0 : ℕ)).length := by
    simp
  refine ⟨?_, ?_, ?_, ?_, ?_, ?_⟩ <;>
  · simp only [SaveImage_dst, h1, h2]
    norm_num
    exact forLoop_storePixel_getElem? oor _ (width * height) _ hl i c hi hc

end LoopInvariant

section Claims

variable {K : Type} [LinearOrderedField K] [FloorRing K]

/-- C1 (code defect): on the triple (1,0,0) the input stage of `ACESFitted` returns
(0.59719, 0.04538644, 0.0230342632652) where the matrix-vector product with `M_in`
is (0.59719, 0.07600, 0.02840), and the result of `ACESFitted` differs from
`M_out · RRTAndODTFit (M_in · c)`. -/
theorem ACESFitted_ne_matrix_product :
    ACESFitted_in (⟨1, 0, 0⟩ : Vector3f ℚ) = ⟨0.59719, 0.04538644, 0.0230342632652⟩ ∧
    matVec ⟨0.59719, 0.35458, 0.04823⟩ ⟨0.07600, 0.90834, 0.01566⟩
        ⟨0.02840, 0.13383, 0.83777⟩ (⟨1, 0, 0⟩ : Vector3f ℚ) = ⟨0.59719, 0.07600, 0.02840⟩ ∧
    ACESFitted (⟨1, 0, 0⟩ : Vector3f ℚ) ≠ ACESFitted_matrix ⟨1, 0, 0⟩ := by
  refine ⟨by norm_num [ACESFitted_in], by norm_num [matVec, dot3], ?_⟩
  intro h
  have hy := congrArg Vector3f.y h
  revert hy
  norm_num [ACESFitted, ACESFitted_in, ACESFitted_out, ACESFitted_matrix, matVec, dot3,
    RRTAndODTFit, RRTAndODTFit_a, RRTAndODTFit_b, Vector3f.mul, Vector3f.addScalar,
    Vector3f.subScalar, Vector3f.scale]

/-- C2 (code defect): for the input 10^10 the product 255·x truncates to
2550000000000, which is more than 255 and does not fit a 32-bit `int`; with the
conversion result of x86-64 the quantiser returns 0, not 255. -/
theorem FloatToUnsignedChar_large_input :
    truncToInt (255 * (10000000000 : ℚ)) = 2550000000000 ∧
    (2147483647 : ℤ) < truncToInt (255 * (10000000000 : ℚ)) ∧
    FloatToUnsignedChar x86OutOfRange (10000000000 : ℚ) = 0 := by
  have ht : truncToInt (255 * (10000000000 : ℚ)) = 2550000000000 := by
    norm_num [truncToInt]
  refine ⟨ht, by rw [ht]; norm_num, ?_⟩
  unfold FloatToUnsignedChar static_cast_int
  rw [ht]
  norm_num [x86OutOfRange]

/-- C3: in each of the six modes 0..5, for every width and height and every input
buffer of length width·height·4, the byte at index 4·i+3 of the buffer `SaveImage`
builds is 255 for every pixel index i < width·height. -/
theorem SaveImage_alpha_opaque (oor : K → ℤ) (pow : K → K → K) (rgba : List K)
    (colorspace : ℤ) (width height i : ℕ)
    (hmode : 0 ≤ colorspace ∧ colorspace ≤ 5)
    (_hlen : rgba.length = width * height * 4) (hi : i < width * height) :
    (SaveImage_dst oor pow rgba colorspace width height)[4 * i + 3]? = some 255 := by
  obtain ⟨h0, h1, h2, h3, h4, h5⟩ :=
    SaveImage_dst_getElem? oor pow rgba width height i 3 hi (by norm_num)
  have hidx : 4 * i + 3 = i * 4 + 3 := by omega
  rw [hidx]
  obtain ⟨hlo, hhi⟩ := hmode
  interval_cases colorspace
  · rw [h0]; rfl
  · rw [h1]; rfl
  · rw [h2]; rfl
  · rw [h3]; rfl
  · rw [h4]; rfl
  · rw [h5]; rfl

theorem SaveImage_alpha_opaque_witness :
    ((0 : ℤ) ≤ 3 ∧ (3 : ℤ) ≤ 5) ∧
    ([0.18, 0.18, 0.18, 1] : List ℚ).length = 1 * 1 * 4 ∧ 0 < 1 * 1 ∧
    (SaveImage_dst x86OutOfRange (fun b _ => b) ([0.18, 0.18, 0.18, 1] : List ℚ) 3
      (1 : ℕ) (1 : ℕ))[4 * 0 + 3]? = some 255 :=
  ⟨by norm_num, by rfl, by norm_num,
    SaveImage_alpha_opaque x86OutOfRange (fun b _ => b) [0.18, 0.18, 0.18, 1] 3 1 1 0
      (by norm_num) (by rfl) (by norm_num)⟩

/-- The buffer `SaveImage` builds has width·height·4 bytes, whatever the selector. -/
theorem SaveImage_dst_length (oor : K → ℤ) (pow : K → K → K) (rgba : List K)
    (colorspace : ℤ) (width height : ℕ) :
    (SaveImage_dst oor pow rgba colorspace width height).length = width * height * 4 := by
  obtain ⟨h1, h2⟩ := toNat_dims width height
  simp only [SaveImage_dst, h1, h2]
  split_ifs <;> simp [forLoop_storePixel_length]

/-- C4: for every input buffer `SaveImage` builds the same buffer under the
selectors 3, 4 and 5, and in each of the three modes colour channel k of pixel i is
`FloatToUnsignedChar (ApplysRGBCurve (ACESFitted (r_i, g_i, b_i))[k])`. -/
theorem SaveImage_ACES_modes_identical (oor : K → ℤ) (pow : K → K → K) (rgba : List K)
    (colorspace : ℤ) (width height i k : ℕ)
    (hcs : colorspace = 3 ∨ colorspace = 4 ∨ colorspace = 5)
    (_hlen : rgba.length = width * height * 4) (hi : i < width * height) (hk : k < 3) :
    SaveImage_dst oor pow rgba 3 width height = SaveImage_dst oor pow rgba 4 width height ∧
    SaveImage_dst oor pow rgba 4 width height = SaveImage_dst oor pow rgba 5 width height ∧
    (SaveImage_dst oor pow rgba colorspace width height)[4 * i + k]? =
      some (FloatToUnsignedChar oor (ApplysRGBCurve pow
        ((ACESFitted (⟨rgba.getD (4 * i) 0, rgba.getD (4 * i + 1) 0,
          rgba.getD (4 * i + 2) 0⟩ : Vector3f K)).get k))) := by
  refine ⟨by norm_num [SaveImage_dst], by norm_num [SaveImage_dst], ?_⟩
  obtain ⟨-, -, -, h3, h4, h5⟩ :=
    SaveImage_dst_getElem? oor pow rgba width height i k hi (by omega)
  have hidx : 4 * i + k = i * 4 + k := by omega
  have hne : k ≠ 3 := by omega
  have htr : pixelTriple rgba i = (⟨rgba.getD (4 * i) 0, rgba.getD (4 * i + 1) 0,
      rgba.getD (4 * i + 2) 0⟩ : Vector3f K) := by
    simp only [pixelTriple, readFloat, Nat.add_zero, Nat.mul_comm i 4]
  rw [hidx, ← htr]
  rcases hcs with rfl | rfl | rfl
  · rw [h3, pixelByte, if_neg hne]
  · rw [h4, pixelByte, if_neg hne]
  · rw [h5, pixelByte, if_neg hne]

theorem SaveImage_ACES_modes_identical_witness :
    ((5 : ℤ) = 3 ∨ (5 : ℤ) = 4 ∨ (5 : ℤ) = 5) ∧
    ([0.18, 0.5, 2, 1] : List ℚ).length = 1 * 1 * 4 ∧ 0 < 1 * 1 ∧ 2 < 3 ∧
    SaveImage_dst x86OutOfRange (fun b _ => b) ([0.18, 0.5, 2, 1] : List ℚ) 3 (1 : ℕ) (1 : ℕ)
      = SaveImage_dst x86OutOfRange (fun b _ => b) ([0.18, 0.5, 2, 1] : List ℚ) 4
          (1 : ℕ) (1 : ℕ) ∧
    SaveImage_dst x86OutOfRange (fun b _ => b) ([0.18, 0.5, 2, 1] : List ℚ) 4 (1 : ℕ) (1 : ℕ)
      = SaveImage_dst x86OutOfRange (fun b _ => b) ([0.18, 0.5, 2, 1] : List ℚ) 5
          (1 : ℕ) (1 : ℕ) ∧
    (SaveImage_dst x86OutOfRange (fun b _ => b) ([0.18, 0.5, 2, 1] : List ℚ) 5
        (1 : ℕ) (1 : ℕ))[4 * 0 + 2]? =
      some (FloatToUnsignedChar x86OutOfRange (ApplysRGBCurve (fun b _ => b)
        ((ACESFitted (⟨([0.18, 0.5, 2, 1] : List ℚ).getD (4 * 0) 0,
          ([0.18, 0.5, 2, 1] : List ℚ).getD (4 * 0 + 1) 0,
          ([0.18, 0.5, 2, 1] : List ℚ).getD (4 * 0 + 2) 0⟩ : Vector3f ℚ)).get 2))) :=
  ⟨by norm_num, by rfl, by norm_num, by norm_num,
    SaveImage_ACES_modes_identical x86OutOfRange (fun b _ => b) [0.18, 0.5, 2, 1] 5 1 1 0 2
      (by norm_num) (by rfl) (by norm_num) (by norm_num)⟩

/-- C5 (code defect): for the one-pixel image (0.007, 0.007, 0.007) the red byte that
selector 4 produces is 1, the sRGB encoding of the tone-mapped value, where
`FloatToUnsignedChar (ApplyRec709Curve (ACESFitted (r, g, b))[0])` is 0. -/
theorem SaveImage_mode4_not_Rec709 (pow : ℚ → ℚ → ℚ) :
    (SaveImage_dst x86OutOfRange pow [0.007, 0.007, 0.007, 1] 4 (1 : ℕ) (1 : ℕ))[0]? = some 1 ∧
    FloatToUnsignedChar x86OutOfRange
      (ApplyRec709Curve pow ((ACESFitted (⟨0.007, 0.007, 0.007⟩ : Vector3f ℚ)).get 0)) = 0 ∧
    FloatToUnsignedChar x86OutOfRange
      (ApplysRGBCurve pow ((ACESFitted (⟨0.007, 0.007, 0.007⟩ : Vector3f ℚ)).get 0)) = 1 := by
  have hv : (ACESFitted (⟨0.007, 0.007, 0.007⟩ : Vector3f ℚ)).get 0 = 43504400 / 80386619907 := by
    norm_num [ACESFitted, ACESFitted_in, ACESFitted_out, RRTAndODTFit, RRTAndODTFit_a,
      RRTAndODTFit_b, Vector3f.mul, Vector3f.addScalar, Vector3f.subScalar, Vector3f.scale,
      Vector3f.get]
  have hs : FloatToUnsignedChar x86OutOfRange
      (ApplysRGBCurve pow ((ACESFitted (⟨0.007, 0.007, 0.007⟩ : Vector3f ℚ)).get 0)) = 1 := by
    rw [hv]
    norm_num [ApplysRGBCurve, FloatToUnsignedChar, static_cast_int, truncToInt]
  refine ⟨?_, ?_, hs⟩
  · have h := (SaveImage_dst_getElem? x86OutOfRange pow [0.007, 0.007, 0.007, 1] 1 1 0 0
      (by norm_num) (by norm_num)).2.2.2.2.1
    have e : pixelTriple ([0.007, 0.007, 0.007, 1] : List ℚ) 0 = ⟨0.007, 0.007, 0.007⟩ := rfl
    rw [pixelByte, if_neg (by norm_num), e, hs] at h
    exact h
  · rw [hv]
    norm_num [ApplyRec709Curve, FloatToUnsignedChar, static_cast_int, truncToInt]



/-- The denominator polynomial of the tone curve has no real root: it is positive
at every value. -/
theorem tone_curve_denominator_pos (t : K) :
    0 < t * (0.983729 * t + 0.4329510) + 0.238081 := by
  nlinarith [sq_nonneg (2 * 0.983729 * t + 0.4329510)]

/-- In exact arithmetic: for every value v the denominator
v·(0.983729·v + 0.432951) + 0.238081 is
strictly positive; for every triple the three denominators `b.x`, `b.y`, `b.z` by
which `RRTAndODTFit` divides are positive, in `ACESFitted` too, so that each
component of the result is the quotient `a / b` by a non-zero number. -/
theorem RRTAndODTFit_total (v : Vector3f K) :
    (∀ t : K, 0 < t * (0.983729 * t + 0.432951) + 0.238081) ∧
    (RRTAndODTFit_b v).x = v.x * (0.983729 * v.x + 0.432951) + 0.238081 ∧
    (RRTAndODTFit_b v).y = v.y * (0.983729 * v.y + 0.432951) + 0.238081 ∧
    (RRTAndODTFit_b v).z = v.z * (0.983729 * v.z + 0.432951) + 0.238081 ∧
    (0 < (RRTAndODTFit_b v).x ∧ 0 < (RRTAndODTFit_b v).y ∧ 0 < (RRTAndODTFit_b v).z) ∧
    (0 < (RRTAndODTFit_b (ACESFitted_in v)).x ∧ 0 < (RRTAndODTFit_b (ACESFitted_in v)).y ∧
      0 < (RRTAndODTFit_b (ACESFitted_in v)).z) ∧
    ((RRTAndODTFit v).x * (RRTAndODTFit_b v).x = (RRTAndODTFit_a v).x ∧
      (RRTAndODTFit v).y * (RRTAndODTFit_b v).y = (RRTAndODTFit_a v).y ∧
      (RRTAndODTFit v).z * (RRTAndODTFit_b v).z = (RRTAndODTFit_a v).z) ∧
    ACESFitted v = ACESFitted_out (RRTAndODTFit (ACESFitted_in v)) := by
  have hpos : ∀ t : K, 0 < t * (0.983729 * t + 0.432951) + 0.238081 := by
    intro t
    have h := tone_curve_denominator_pos t
    norm_num at h ⊢
    exact h
  have hb : ∀ w : Vector3f K,
      (RRTAndODTFit_b w).x = w.x * (0.983729 * w.x + 0.432951) + 0.238081 ∧
      (RRTAndODTFit_b w).y = w.y * (0.983729 * w.y + 0.432951) + 0.238081 ∧
      (RRTAndODTFit_b w).z = w.z * (0.983729 * w.z + 0.432951) + 0.238081 := by
    intro w
    simp only [RRTAndODTFit_b, Vector3f.mul, Vector3f.addScalar, Vector3f.scale]
    norm_num
  have hbpos : ∀ w : Vector3f K,
      0 < (RRTAndODTFit_b w).x ∧ 0 < (RRTAndODTFit_b w).y ∧ 0 < (RRTAndODTFit_b w).z := by
    intro w
    obtain ⟨hx, hy, hz⟩ := hb w
    rw [hx, hy, hz]
    exact ⟨hpos _, hpos _, hpos _⟩
  obtain ⟨hx, hy, hz⟩ := hbpos v
  refine ⟨hpos, (hb v).1, (hb v).2.1, (hb v).2.2, hbpos v, hbpos _, ⟨?_, ?_, ?_⟩, rfl⟩
  · simp only [RRTAndODTFit]
    exact div_mul_cancel₀ _ (ne_of_gt hx)
  · simp only [RRTAndODTFit]
    exact div_mul_cancel₀ _ (ne_of_gt hy)
  · simp only [RRTAndODTFit]
    exact div_mul_cancel₀ _ (ne_of_gt hz)

/-- C10: in Linear mode (selector 0), for every input buffer of length
width·height·4, every pixel i and every colour channel k < 3, the output byte at
4·i+k is `FloatToUnsignedChar` of the input sample at 4·i+k. -/
theorem SaveImage_linear_identity (oor : K → ℤ) (pow : K → K → K) (rgba : List K)
    (width height i k : ℕ)
    (hlen : rgba.length = width * height * 4) (hi : i < width * height) (hk : k < 3) :
    (SaveImage_dst oor pow rgba 0 width height)[4 * i + k]? =
      (rgba[4 * i + k]?).map (FloatToUnsignedChar oor) := by
  have h0 := (SaveImage_dst_getElem? oor pow rgba width height i k hi (by omega)).1
  have hidx : 4 * i + k = i * 4 + k := by omega
  have hne : k ≠ 3 := by omega
  have hlt : i * 4 + k < rgba.length := by omega
  rw [hidx, h0, pixelByte, if_neg hne, List.getElem?_eq_getElem hlt]
  simp [readFloat, List.getElem?_eq_getElem hlt]

theorem SaveImage_linear_identity_witness :
    ([0.5, 0.25, 1, 0] : List ℚ).length = 1 * 1 * 4 ∧ 0 < 1 * 1 ∧ 1 < 3 ∧
    (SaveImage_dst x86OutOfRange (fun b _ => b) ([0.5, 0.25, 1, 0] : List ℚ) 0
      (1 : ℕ) (1 : ℕ))[4 * 0 + 1]? =
      (([0.5, 0.25, 1, 0] : List ℚ)[4 * 0 + 1]?).map (FloatToUnsignedChar x86OutOfRange) :=
  ⟨by rfl, by norm_num, by norm_num,
    SaveImage_linear_identity x86OutOfRange (fun b _ => b) [0.5, 0.25, 1, 0] 1 1 0 1
      (by rfl) (by norm_num) (by norm_num)⟩

end Claims

section MainProgram

variable {K : Type} [LinearOrderedField K] [FloorRing K]

/-- With a selector outside 0..5 none of the six blocks of `SaveImage` runs: the
buffer keeps the zero bytes it was created with. -/
theorem SaveImage_dst_of_invalid (oor : K → ℤ) (pow : K → K → K) (rgba : List K)
    (colorspace width height : ℤ) (h : colorspace < 0 ∨ 5 < colorspace) :
    SaveImage_dst oor pow rgba colorspace width height
      = List.replicate (width * height * 4).toNat 0 := by
  have h0 : colorspace ≠ 0 := by omega
  have h1 : colorspace ≠ 1 := by omega
  have h2 : colorspace ≠ 2 := by omega
  have h3 : colorspace ≠ 3 := by omega
  have h4 : colorspace ≠ 4 := by omega
  have h5 : colorspace ≠ 5 := by omega
  simp only [SaveImage_dst, if_neg h0, if_neg h1, if_neg h2, if_neg h3, if_neg h4, if_neg h5]

/-- C6 (counterexample): run with the selector 7 on a decoded 1×1 image, the program
hands the encoder the buffer [0, 0, 0, 0] and exits with status 0. -/
theorem main_accepts_selector_7 :
    ahBakeTransform.main (fun _ => 7) (fun _ => (1 : ℚ))
      (fun _ => ⟨0, [0.18, 0.18, 0.18, 1], 1, 1⟩)
      (fun buf _ _ _ _ => (1, buf)) (fun _ => 1) x86OutOfRange (fun b _ => b)
      ["ahBakeTransform", "in.exr", "out.png", "7"]
    = ⟨Outcome.exited 0, [⟨"out.png", 1, 1, 4, [0, 0, 0, 0], 4⟩]⟩ := by
  norm_num [ahBakeTransform.main, main_colorspace, main_resize_factor, main_dst_width,
    main_dst_height, divToInt, static_cast_int, truncToInt, wrapInt32, SaveImage,
    SaveImage_dst]
  rfl

/-- The 32-bit representative of a value that fits the `int` is the value. -/
theorem wrapInt32_of_fits (z : ℤ) (hlo : -2147483648 ≤ z) (hhi : z ≤ 2147483647) :
    wrapInt32 z = z := by
  unfold wrapInt32
  omega

/-- C6 (amended): a selector outside 0..5 is not rejected.  Whenever the image is
decoded, the buffer size dst_width·dst_height·4 is positive and fits a 32-bit `int`,
and the resampler succeeds, `main` passes the selector to `SaveImage`, which hands
the encoder exactly one buffer, of dst_width·dst_height·4 zero bytes, and the exit
status is 0 if the encoder reports success and -1 if not. -/
theorem main_invalid_selector_not_rejected (atoi : String → ℤ) (atof : String → K)
    (LoadEXR : String → ExrImage K)
    (stbir_resize_float : List K → ℤ → ℤ → ℤ → ℤ → ℤ × List K)
    (stbi_write_png : PngCall → ℤ) (oor : K → ℤ) (pow : K → K → K) (argv : List String)
    (hs : main_colorspace atoi argv < 0 ∨ 5 < main_colorspace atoi argv)
    (hargc : 3 ≤ argv.length)
    (hload : (LoadEXR (argv.getD 1 "")).image = 0)
    (hdims : 0 < main_dst_width atof LoadEXR oor argv * main_dst_height atof LoadEXR oor argv * 4)
    (hfits : main_dst_width atof LoadEXR oor argv * main_dst_height atof LoadEXR oor argv * 4
      ≤ 2147483647)
    (hresize : (stbir_resize_float (LoadEXR (argv.getD 1 "")).rgba
      (LoadEXR (argv.getD 1 "")).width (LoadEXR (argv.getD 1 "")).height
      (main_dst_width atof LoadEXR oor argv) (main_dst_height atof LoadEXR oor argv)).1 ≠ 0) :
    ahBakeTransform.main atoi atof LoadEXR stbir_resize_float stbi_write_png oor pow argv
      = ⟨Outcome.exited
          (if 0 < stbi_write_png ⟨argv.getD 2 "", main_dst_width atof LoadEXR oor argv,
              main_dst_height atof LoadEXR oor argv, 4,
              List.replicate (main_dst_width atof LoadEXR oor argv *
                main_dst_height atof LoadEXR oor argv * 4).toNat 0,
              main_dst_width atof LoadEXR oor argv * 4⟩
            then 0 else -1),
         [⟨argv.getD 2 "", main_dst_width atof LoadEXR oor argv,
            main_dst_height atof LoadEXR oor argv, 4,
            List.replicate (main_dst_width atof LoadEXR oor argv *
              main_dst_height atof LoadEXR oor argv * 4).toNat 0,
            main_dst_width atof LoadEXR oor argv * 4⟩]⟩ := by
  have hlt : ¬ argv.length < 3 := by omega
  have hw : wrapInt32 (wrapInt32 (main_dst_width atof LoadEXR oor argv *
      main_dst_height atof LoadEXR oor argv) * 4)
      = main_dst_width atof LoadEXR oor argv * main_dst_height atof LoadEXR oor argv * 4 := by
    have h1 := wrapInt32_of_fits (main_dst_width atof LoadEXR oor argv *
      main_dst_height atof LoadEXR oor argv) (by omega) (by omega)
    rw [h1]
    exact wrapInt32_of_fits _ (by omega) hfits
  have hd : ¬ main_dst_width atof LoadEXR oor argv * main_dst_height atof LoadEXR oor argv * 4
      ≤ 0 := by omega
  simp only [ahBakeTransform.main, if_neg hlt, hload, ne_eq, not_true_eq_false, if_false,
    hw, if_neg hd, if_neg hresize, SaveImage, SaveImage_dst_of_invalid _ _ _ _ _ _ hs]
  simp

theorem main_invalid_selector_not_rejected_witness :
    (main_colorspace (fun _ => -1) ["ahBakeTransform", "in.exr", "out.png", "-1"] < 0 ∨
      5 < main_colorspace (fun _ => -1) ["ahBakeTransform", "in.exr", "out.png", "-1"]) ∧
    ahBakeTransform.main (fun _ => -1) (fun _ => (1 : ℚ))
      (fun _ => ⟨0, [0.18, 0.18, 0.18, 1, 2, 2, 2, 1], 2, 1⟩)
      (fun buf _ _ _ _ => (1, buf)) (fun _ => 0) x86OutOfRange (fun b _ => b)
      ["ahBakeTransform", "in.exr", "out.png", "-1"]
    = ⟨Outcome.exited (-1), [⟨"out.png", 2, 1, 4, [0, 0, 0, 0, 0, 0, 0, 0], 8⟩]⟩ :=
  ⟨by norm_num [main_colorspace],
    (main_invalid_selector_not_rejected (fun _ => -1) (fun _ => (1 : ℚ))
      (fun _ => ⟨0, [0.18, 0.18, 0.18, 1, 2, 2, 2, 1], 2, 1⟩)
      (fun buf _ _ _ _ => (1, buf)) (fun _ => 0) x86OutOfRange (fun b _ => b)
      ["ahBakeTransform", "in.exr", "out.png", "-1"]
      (by norm_num [main_colorspace]) (by norm_num) (by norm_num)
      (by norm_num [main_dst_width, main_dst_height, main_resize_factor, divToInt,
        static_cast_int, truncToInt, wrapInt32])
      (by norm_num [main_dst_width, main_dst_height, main_resize_factor, divToInt,
        static_cast_int, truncToInt, wrapInt32])
      (by norm_num)).trans
      (by
        norm_num [main_dst_width, main_dst_height, main_resize_factor, divToInt,
          static_cast_int, truncToInt, wrapInt32]
        rfl)⟩

/-- With the resize factor 0 both divisions are out of range; with the conversion
result of x86-64 the products wrap to 0, `buf` is empty and `buf.at(0)` aborts the
run before the encoder is reached. -/
theorem main_resize_factor_zero_aborts :
    ahBakeTransform.main (fun _ => 7) (fun _ => (0 : ℚ))
      (fun _ => ⟨0, [0.18, 0.18, 0.18, 1], 1, 1⟩)
      (fun buf _ _ _ _ => (1, buf)) (fun _ => 1) x86OutOfRange (fun b _ => b)
      ["ahBakeTransform", "in.exr", "out.png", "7", "0"]
    = ⟨Outcome.aborted, []⟩ := by
  norm_num [ahBakeTransform.main, main_colorspace, main_resize_factor, main_dst_width,
    main_dst_height, divToInt, static_cast_int, truncToInt, wrapInt32, x86OutOfRange]

/-- A 32768×32768 image: the product 32768·32768·4 = 2^32 wraps to 0 and the run
aborts before the encoder is reached. -/
theorem main_wrapped_product_aborts :
    ahBakeTransform.main (fun _ => 7) (fun _ => (1 : ℚ))
      (fun _ => ⟨0, [], 32768, 32768⟩)
      (fun buf _ _ _ _ => (1, buf)) (fun _ => 1) x86OutOfRange (fun b _ => b)
      ["ahBakeTransform", "in.exr", "out.png", "7"]
    = ⟨Outcome.aborted, []⟩ := by
  norm_num [ahBakeTransform.main, main_colorspace, main_resize_factor, main_dst_width,
    main_dst_height, divToInt, static_cast_int, truncToInt, wrapInt32]

end MainProgram

section TransferCurves

/-- A rational lower bound of a real power, checked on integer powers. -/
theorem le_rpow_of_pow_le {q b : ℝ} (hq : 0 ≤ q) (hb : 0 ≤ b) (m n : ℕ) (hn : 0 < n)
    (h : q ^ n ≤ b ^ m) : q ≤ b ^ ((m : ℝ) / n) := by
  have hn0 : (n : ℝ) ≠ 0 := by exact_mod_cast hn.ne'
  have h1 : (q ^ n) ^ ((1 : ℝ) / n) ≤ (b ^ m) ^ ((1 : ℝ) / n) :=
    Real.rpow_le_rpow (pow_nonneg hq n) h (by positivity)
  have e1 : (q ^ n) ^ ((1 : ℝ) / n) = q := by
    rw [← Real.rpow_natCast, ← Real.rpow_mul hq, mul_one_div_cancel hn0, Real.rpow_one]
  have e2 : (b ^ m) ^ ((1 : ℝ) / n) = b ^ ((m : ℝ) / n) := by
    rw [← Real.rpow_natCast, ← Real.rpow_mul hb]
    congr 1
    ring
  rw [e1, e2] at h1
  exact h1

/-- A rational strict upper bound of a real power, checked on integer powers. -/
theorem rpow_lt_of_pow_lt {q b : ℝ} (hq : 0 ≤ q) (hb : 0 ≤ b) (m n : ℕ) (hn : 0 < n)
    (h : b ^ m < q ^ n) : b ^ ((m : ℝ) / n) < q := by
  have hn0 : (n : ℝ) ≠ 0 := by exact_mod_cast hn.ne'
  have h1 : (b ^ m) ^ ((1 : ℝ) / n) < (q ^ n) ^ ((1 : ℝ) / n) :=
    Real.rpow_lt_rpow (pow_nonneg hb m) h (by positivity)
  have e1 : (q ^ n) ^ ((1 : ℝ) / n) = q := by
    rw [← Real.rpow_natCast, ← Real.rpow_mul hq, mul_one_div_cancel hn0, Real.rpow_one]
  have e2 : (b ^ m) ^ ((1 : ℝ) / n) = b ^ ((m : ℝ) / n) := by
    rw [← Real.rpow_natCast, ← Real.rpow_mul hb]
    congr 1
    ring
  rw [e1, e2] at h1
  exact h1

theorem sRGB_exponent : ((1.0 : ℝ) / 2.4) = ((5 : ℕ) : ℝ) / ((12 : ℕ) : ℝ) := by norm_num

theorem Rec709_exponent : (0.45 : ℝ) = ((9 : ℕ) : ℝ) / ((20 : ℕ) : ℝ) := by norm_num

/-- The sRGB curve below its breakpoint. -/
theorem ApplysRGBCurve_of_lt (x : ℝ) (h : x < 0.0031308) :
    ApplysRGBCurve Real.rpow x = 12.92 * x := by
  simp only [ApplysRGBCurve, if_pos h]

/-- The sRGB curve from its breakpoint on. -/
theorem ApplysRGBCurve_of_ge (x : ℝ) (h : 0.0031308 ≤ x) :
    ApplysRGBCurve Real.rpow x = 1.055 * x ^ ((1.0 : ℝ) / 2.4) - 0.055 := by
  simp only [ApplysRGBCurve, if_neg (not_lt.mpr h), Real.rpow_eq_pow]

/-- The Rec.709 curve below its breakpoint. -/
theorem ApplyRec709Curve_of_lt (x : ℝ) (h : x < 0.0181) :
    ApplyRec709Curve Real.rpow x = 4.5 * x := by
  simp only [ApplyRec709Curve, if_pos h]

/-- The Rec.709 curve from its breakpoint on. -/
theorem ApplyRec709Curve_of_ge (x : ℝ) (h : 0.0181 ≤ x) :
    ApplyRec709Curve Real.rpow x = 1.0993 * x ^ (0.45 : ℝ) - 0.0993 := by
  simp only [ApplyRec709Curve, if_neg (not_lt.mpr h), Real.rpow_eq_pow]

/-- Value of the power branch of the sRGB curve at the breakpoint, to 3e-8. -/
theorem sRGB_power_at_breakpoint :
    12.92 * 0.0031308 - 3e-8 ≤ 1.055 * (0.0031308 : ℝ) ^ ((1.0 : ℝ) / 2.4) - 0.055 ∧
    1.055 * (0.0031308 : ℝ) ^ ((1.0 : ℝ) / 2.4) - 0.055 < 12.92 * 0.003130799 := by
  have lo : (12.92 * 0.0031308 - 3e-8 + 0.055) / 1.055 ≤ (0.0031308 : ℝ) ^ ((1.0 : ℝ) / 2.4) := by
    rw [sRGB_exponent]
    apply le_rpow_of_pow_le (by norm_num) (by norm_num) 5 12 (by norm_num)
    norm_num
  have hi : (0.0031308 : ℝ) ^ ((1.0 : ℝ) / 2.4) < (12.92 * 0.003130799 + 0.055) / 1.055 := by
    rw [sRGB_exponent]
    apply rpow_lt_of_pow_lt (by norm_num) (by norm_num) 5 12 (by norm_num)
    norm_num
  rw [div_le_iff₀ (by norm_num)] at lo
  rw [lt_div_iff₀ (by norm_num)] at hi
  constructor <;> linarith

/-- Value of the power branch of the Rec.709 curve at the breakpoint, to 3e-6. -/
theorem Rec709_power_at_breakpoint :
    4.5 * 0.0181 - 3e-6 ≤ 1.0993 * (0.0181 : ℝ) ^ (0.45 : ℝ) - 0.0993 ∧
    1.0993 * (0.0181 : ℝ) ^ (0.45 : ℝ) - 0.0993 < 4.5 * 0.0180999 := by
  have lo : (4.5 * 0.0181 - 3e-6 + 0.0993) / 1.0993 ≤ (0.0181 : ℝ) ^ (0.45 : ℝ) := by
    rw [Rec709_exponent]
    apply le_rpow_of_pow_le (by norm_num) (by norm_num) 9 20 (by norm_num)
    norm_num
  have hi : (0.0181 : ℝ) ^ (0.45 : ℝ) < (4.5 * 0.0180999 + 0.0993) / 1.0993 := by
    rw [Rec709_exponent]
    apply rpow_lt_of_pow_lt (by norm_num) (by norm_num) 9 20 (by norm_num)
    norm_num
  rw [div_le_iff₀ (by norm_num)] at lo
  rw [lt_div_iff₀ (by norm_num)] at hi
  constructor <;> linarith

/-- C7 (counterexample): each curve takes a smaller value at its breakpoint than
just below it, sRGB at 0.003130799 < 0.0031308 and Rec.709 at 0.0180999 < 0.0181,
all four points lying in [0, 1]. -/
theorem curves_decrease_at_breakpoint :
    ((0 : ℝ) ≤ 0.003130799 ∧ (0.003130799 : ℝ) ≤ 0.0031308 ∧ (0.0031308 : ℝ) ≤ 1 ∧
      ApplysRGBCurve Real.rpow 0.0031308 < ApplysRGBCurve Real.rpow 0.003130799) ∧
    ((0 : ℝ) ≤ 0.0180999 ∧ (0.0180999 : ℝ) ≤ 0.0181 ∧ (0.0181 : ℝ) ≤ 1 ∧
      ApplyRec709Curve Real.rpow 0.0181 < ApplyRec709Curve Real.rpow 0.0180999) := by
  refine ⟨⟨by norm_num, by norm_num, by norm_num, ?_⟩, ⟨by norm_num, by norm_num, by norm_num, ?_⟩⟩
  · rw [ApplysRGBCurve_of_ge _ le_rfl, ApplysRGBCurve_of_lt _ (by norm_num)]
    exact sRGB_power_at_breakpoint.2
  · rw [ApplyRec709Curve_of_ge _ le_rfl, ApplyRec709Curve_of_lt _ (by norm_num)]
    exact Rec709_power_at_breakpoint.2

/-- C7 (amended): for all x ≤ y in [0, 1] each curve is non-decreasing when x and y
lie on the same side of its breakpoint, and for a pair that straddles the breakpoint
the value drops by at most 3e-8 (sRGB) and 3e-6 (Rec.709). -/
theorem curves_monotone_up_to_breakpoint_drop (x y : ℝ)
    (hx : 0 ≤ x) (hxy : x ≤ y) (_hy : y ≤ 1) :
    ApplysRGBCurve Real.rpow x ≤ ApplysRGBCurve Real.rpow y +
      (if x < 0.0031308 ∧ 0.0031308 ≤ y then 3e-8 else 0) ∧
    ApplyRec709Curve Real.rpow x ≤ ApplyRec709Curve Real.rpow y +
      (if x < 0.0181 ∧ 0.0181 ≤ y then 3e-6 else 0) := by
  constructor
  · by_cases h1 : x < 0.0031308
    · by_cases h2 : y < 0.0031308
      · rw [ApplysRGBCurve_of_lt _ h1, ApplysRGBCurve_of_lt _ h2,
          if_neg (by rintro ⟨-, h⟩; linarith)]
        linarith
      · have h2' : (0.0031308 : ℝ) ≤ y := not_lt.mp h2
        rw [ApplysRGBCurve_of_lt _ h1, ApplysRGBCurve_of_ge _ h2', if_pos ⟨h1, h2'⟩]
        have hm : (0.0031308 : ℝ) ^ ((1.0 : ℝ) / 2.4) ≤ y ^ ((1.0 : ℝ) / 2.4) :=
          Real.rpow_le_rpow (by norm_num) h2' (by norm_num)
        have hb := sRGB_power_at_breakpoint.1
        linarith
    · have h1' : (0.0031308 : ℝ) ≤ x := not_lt.mp h1
      have h2' : (0.0031308 : ℝ) ≤ y := le_trans h1' hxy
      rw [ApplysRGBCurve_of_ge _ h1', ApplysRGBCurve_of_ge _ h2', if_neg (by rintro ⟨h, -⟩; exact h1 h)]
      have hm : x ^ ((1.0 : ℝ) / 2.4) ≤ y ^ ((1.0 : ℝ) / 2.4) :=
        Real.rpow_le_rpow hx hxy (by norm_num)
      linarith
  · by_cases h1 : x < 0.0181
    · by_cases h2 : y < 0.0181
      · rw [ApplyRec709Curve_of_lt _ h1, ApplyRec709Curve_of_lt _ h2,
          if_neg (by rintro ⟨-, h⟩; linarith)]
        linarith
      · have h2' : (0.0181 : ℝ) ≤ y := not_lt.mp h2
        rw [ApplyRec709Curve_of_lt _ h1, ApplyRec709Curve_of_ge _ h2', if_pos ⟨h1, h2'⟩]
        have hm : (0.0181 : ℝ) ^ (0.45 : ℝ) ≤ y ^ (0.45 : ℝ) :=
          Real.rpow_le_rpow (by norm_num) h2' (by norm_num)
        have hb := Rec709_power_at_breakpoint.1
        linarith
    · have h1' : (0.0181 : ℝ) ≤ x := not_lt.mp h1
      have h2' : (0.0181 : ℝ) ≤ y := le_trans h1' hxy
      rw [ApplyRec709Curve_of_ge _ h1', ApplyRec709Curve_of_ge _ h2', if_neg (by rintro ⟨h, -⟩; exact h1 h)]
      have hm : x ^ (0.45 : ℝ) ≤ y ^ (0.45 : ℝ) :=
        Real.rpow_le_rpow hx hxy (by norm_num)
      linarith

theorem curves_monotone_up_to_breakpoint_drop_witness :
    (0 : ℝ) ≤ 0.003 ∧ (0.003 : ℝ) ≤ 0.5 ∧ (0.5 : ℝ) ≤ 1 ∧
    ApplysRGBCurve Real.rpow 0.003 ≤ ApplysRGBCurve Real.rpow 0.5 +
      (if (0.003 : ℝ) < 0.0031308 ∧ (0.0031308 : ℝ) ≤ 0.5 then 3e-8 else 0) ∧
    ApplyRec709Curve Real.rpow 0.003 ≤ ApplyRec709Curve Real.rpow 0.5 +
      (if (0.003 : ℝ) < 0.0181 ∧ (0.0181 : ℝ) ≤ 0.5 then 3e-6 else 0) :=
  ⟨by norm_num, by norm_num, by norm_num,
    curves_monotone_up_to_breakpoint_drop 0.003 0.5 (by norm_num) (by norm_num) (by norm_num)⟩

/-- C8: at the sRGB breakpoint the two branches agree to within 1e-4,
|12.92·0.0031308 − (1.055·0.0031308^(1/2.4) − 0.055)| < 1e-4, and at the Rec.709
breakpoint |4.5·0.0181 − (1.0993·0.0181^0.45 − 0.0993)| < 1e-4; the power branch is
the value of the curve at the breakpoint and the linear branch its value below. -/
theorem curve_branches_agree_at_breakpoint :
    ApplysRGBCurve Real.rpow 0.0031308 = 1.055 * (0.0031308 : ℝ) ^ ((1 : ℝ) / 2.4) - 0.055 ∧
    |12.92 * 0.0031308 - (1.055 * (0.0031308 : ℝ) ^ ((1 : ℝ) / 2.4) - 0.055)| < 1e-4 ∧
    |12.92 * 0.0031308 - ApplysRGBCurve Real.rpow 0.0031308| < 1e-4 ∧
    ApplyRec709Curve Real.rpow 0.0181 = 1.0993 * (0.0181 : ℝ) ^ (0.45 : ℝ) - 0.0993 ∧
    |4.5 * 0.0181 - (1.0993 * (0.0181 : ℝ) ^ (0.45 : ℝ) - 0.0993)| < 1e-4 ∧
    |4.5 * 0.0181 - ApplyRec709Curve Real.rpow 0.0181| < 1e-4 := by
  have e1 : ((1 : ℝ) / 2.4) = ((1.0 : ℝ) / 2.4) := by norm_num
  have hs := sRGB_power_at_breakpoint
  have hr := Rec709_power_at_breakpoint
  have a1 : |12.92 * 0.0031308 - (1.055 * (0.0031308 : ℝ) ^ ((1.0 : ℝ) / 2.4) - 0.055)|
      < 1e-4 := by
    rw [abs_lt]
    constructor <;> linarith [hs.1, hs.2]
  have a2 : |4.5 * 0.0181 - (1.0993 * (0.0181 : ℝ) ^ (0.45 : ℝ) - 0.0993)| < 1e-4 := by
    rw [abs_lt]
    constructor <;> linarith [hr.1, hr.2]
  rw [ApplysRGBCurve_of_ge _ le_rfl, ApplyRec709Curve_of_ge _ le_rfl, e1]
  exact ⟨rfl, a1, a1, rfl, a2, a2⟩

end TransferCurves

section PixelIndependence

variable {K : Type} [LinearOrderedField K] [FloorRing K]

/-- The loop body reads the input buffer only through the three colour samples
of its pixel. -/
theorem readFloat_congr (rgba1 rgba2 : List K) (j : ℕ) (h : rgba1[j]? = rgba2[j]?) :
    readFloat rgba1 j = readFloat rgba2 j := by
  simp only [readFloat, List.getD_eq_getElem?_getD, h]

/-- C11: for every mode 0..5 and every pixel index i, two input buffers of the same
dimensions that agree on the samples 4·i, 4·i+1 and 4·i+2 give the same four output
bytes 4·i .. 4·i+3, whatever their other samples are. -/
theorem SaveImage_pixel_independent (oor : K → ℤ) (pow : K → K → K) (rgba1 rgba2 : List K)
    (colorspace : ℤ) (width height i c : ℕ)
    (hmode : 0 ≤ colorspace ∧ colorspace ≤ 5)
    (_hlen1 : rgba1.length = width * height * 4) (_hlen2 : rgba2.length = width * height * 4)
    (hi : i < width * height) (hc : c < 4)
    (hr : rgba1[4 * i]? = rgba2[4 * i]?) (hg : rgba1[4 * i + 1]? = rgba2[4 * i + 1]?)
    (hb : rgba1[4 * i + 2]? = rgba2[4 * i + 2]?) :
    (SaveImage_dst oor pow rgba1 colorspace width height)[4 * i + c]? =
      (SaveImage_dst oor pow rgba2 colorspace width height)[4 * i + c]? := by
  have e0 : readFloat rgba1 (i * 4 + 0) = readFloat rgba2 (i * 4 + 0) :=
    readFloat_congr _ _ _ (by rw [show i * 4 + 0 = 4 * i by omega]; exact hr)
  have e1 : readFloat rgba1 (i * 4 + 1) = readFloat rgba2 (i * 4 + 1) :=
    readFloat_congr _ _ _ (by rw [show i * 4 + 1 = 4 * i + 1 by omega]; exact hg)
  have e2 : readFloat rgba1 (i * 4 + 2) = readFloat rgba2 (i * 4 + 2) :=
    readFloat_congr _ _ _ (by rw [show i * 4 + 2 = 4 * i + 2 by omega]; exact hb)
  have et : pixelTriple rgba1 i = pixelTriple rgba2 i := by
    simp only [pixelTriple, e0, e1, e2]
  have e0z : readFloat rgba1 (i * 4) = readFloat rgba2 (i * 4) := e0
  obtain ⟨a0, a1, a2, a3, a4, a5⟩ := SaveImage_dst_getElem? oor pow rgba1 width height i c hi hc
  obtain ⟨b0, b1, b2, b3, b4, b5⟩ := SaveImage_dst_getElem? oor pow rgba2 width height i c hi hc
  have hidx : 4 * i + c = i * 4 + c := by omega
  have h4 : c = 0 ∨ c = 1 ∨ c = 2 ∨ c = 3 := by omega
  rw [hidx]
  obtain ⟨hlo, hhi⟩ := hmode
  interval_cases colorspace
  · rw [a0, b0]
    rcases h4 with rfl | rfl | rfl | rfl <;> simp [pixelByte, e0z, e1, e2]
  · rw [a1, b1]
    rcases h4 with rfl | rfl | rfl | rfl <;> simp [pixelByte, e0z, e1, e2]
  · rw [a2, b2]
    rcases h4 with rfl | rfl | rfl | rfl <;> simp [pixelByte, e0z, e1, e2]
  · rw [a3, b3, et]
  · rw [a4, b4, et]
  · rw [a5, b5, et]

theorem SaveImage_pixel_independent_witness :
    ((0 : ℤ) ≤ 3 ∧ (3 : ℤ) ≤ 5) ∧
    ([0.2, 0.4, 0.6, 1, 7, 8, 9, 1] : List ℚ).length = 2 * 1 * 4 ∧
    ([0.2, 0.4, 0.6, 0, 1, 2, 3, 0] : List ℚ).length = 2 * 1 * 4 ∧
    0 < 2 * 1 ∧ 1 < 4 ∧
    ([0.2, 0.4, 0.6, 1, 7, 8, 9, 1] : List ℚ)[4 * 0]? =
      ([0.2, 0.4, 0.6, 0, 1, 2, 3, 0] : List ℚ)[4 * 0]? ∧
    ([0.2, 0.4, 0.6, 1, 7, 8, 9, 1] : List ℚ)[4 * 0 + 1]? =
      ([0.2, 0.4, 0.6, 0, 1, 2, 3, 0] : List ℚ)[4 * 0 + 1]? ∧
    ([0.2, 0.4, 0.6, 1, 7, 8, 9, 1] : List ℚ)[4 * 0 + 2]? =
      ([0.2, 0.4, 0.6, 0, 1, 2, 3, 0] : List ℚ)[4 * 0 + 2]? ∧
    (SaveImage_dst x86OutOfRange (fun b _ => b) ([0.2, 0.4, 0.6, 1, 7, 8, 9, 1] : List ℚ) 3
        (2 : ℕ) (1 : ℕ))[4 * 0 + 1]? =
      (SaveImage_dst x86OutOfRange (fun b _ => b) ([0.2, 0.4, 0.6, 0, 1, 2, 3, 0] : List ℚ) 3
        (2 : ℕ) (1 : ℕ))[4 * 0 + 1]? :=
  ⟨by norm_num, by rfl, by rfl, by norm_num, by norm_num, by rfl, by rfl, by rfl,
    SaveImage_pixel_independent x86OutOfRange (fun b _ => b) [0.2, 0.4, 0.6, 1, 7, 8, 9, 1]
      [0.2, 0.4, 0.6, 0, 1, 2, 3, 0] 3 2 1 0 1 (by norm_num) (by rfl) (by rfl) (by norm_num)
      (by norm_num) (by rfl) (by rfl) (by rfl)⟩

end PixelIndependence

section Scenarios

variable {K : Type} [LinearOrderedField K] [FloorRing K]

/-- The quantiser sends a negative value to 0, the out-of-range conversion of a
negative operand being not positive. -/
theorem FloatToUnsignedChar_of_neg (oor : K → ℤ) (f : K) (hf : f < 0)
    (hoor : ∀ r : K, r < 0 → oor r ≤ 0) : FloatToUnsignedChar oor f = 0 := by
  have hr : 255 * f < 0 := by linarith
  have ht : truncToInt (255 * f) ≤ 0 := by
    rw [truncToInt, if_neg (not_le.mpr hr)]
    exact Int.ceil_le.mpr (by exact_mod_cast hr.le)
  have hs : static_cast_int oor (255 * f) ≤ 0 := by
    unfold static_cast_int
    split_ifs
    · exact ht
    · exact hoor _ hr
  unfold FloatToUnsignedChar
  simp only []
  split_ifs <;> omega

/-- C12: the sRGB curve does not clamp its input: for every v < 0 and whatever `pow`
is, `ApplysRGBCurve v = 12.92·v`, a negative value, and the quantiser maps it to 0
(on a target whose out-of-range conversion of a negative operand is not positive,
as `INT_MIN` of x86-64 and of the saturating targets). -/
theorem ApplysRGBCurve_negative_unclamped (oor : K → ℤ) (pow : K → K → K) (v : K)
    (hv : v < 0) (hoor : ∀ r : K, r < 0 → oor r ≤ 0) :
    ApplysRGBCurve pow v = 12.92 * v ∧ ApplysRGBCurve pow v < 0 ∧
    FloatToUnsignedChar oor (ApplysRGBCurve pow v) = 0 := by
  have hlt : v < 0.0031308 := lt_trans hv (by norm_num)
  have he : ApplysRGBCurve pow v = 12.92 * v := by
    simp only [ApplysRGBCurve, if_pos hlt]
  have hneg : ApplysRGBCurve pow v < 0 := by
    rw [he]
    exact mul_neg_of_pos_of_neg (by norm_num) hv
  exact ⟨he, hneg, FloatToUnsignedChar_of_neg oor _ hneg hoor⟩

theorem ApplysRGBCurve_negative_unclamped_witness :
    (-1 : ℚ) < 0 ∧ (∀ r : ℚ, r < 0 → x86OutOfRange r ≤ 0) ∧
    ApplysRGBCurve (fun b _ => b) (-1 : ℚ) = 12.92 * (-1) ∧
    ApplysRGBCurve (fun b _ => b) (-1 : ℚ) < 0 ∧
    FloatToUnsignedChar x86OutOfRange (ApplysRGBCurve (fun b _ => b) (-1 : ℚ)) = 0 :=
  ⟨by norm_num, fun _ _ => by norm_num [x86OutOfRange],
    ApplysRGBCurve_negative_unclamped x86OutOfRange (fun b _ => b) (-1) (by norm_num)
      (fun _ _ => by norm_num [x86OutOfRange])⟩

/-- The quantiser at the values 0 and 1. -/
theorem FloatToUnsignedChar_zero_one (oor : K → ℤ) :
    FloatToUnsignedChar oor 0 = 0 ∧ FloatToUnsignedChar oor 1 = 255 := by
  constructor
  · norm_num [FloatToUnsignedChar, static_cast_int, truncToInt]
  · norm_num [FloatToUnsignedChar, static_cast_int, truncToInt]
    rfl

/-- The sample the loop body reads, when the buffer holds it. -/
theorem readFloat_of_getElem? (rgba : List K) (j : ℕ) (a : K) (h : rgba[j]? = some a) :
    readFloat rgba j = a := by
  simp [readFloat, h]

/-- C14: a pixel with linear value (1, 1, 1) encoded under mode Linear (selector 0)
yields the four bytes (255, 255, 255, 255). -/
theorem SaveImage_linear_white (oor : K → ℤ) (pow : K → K → K) (rgba : List K)
    (width height i : ℕ)
    (_hlen : rgba.length = width * height * 4) (hi : i < width * height)
    (hr : rgba[4 * i]? = some 1) (hg : rgba[4 * i + 1]? = some 1)
    (hb : rgba[4 * i + 2]? = some 1) :
    (SaveImage_dst oor pow rgba 0 width height)[4 * i]? = some 255 ∧
    (SaveImage_dst oor pow rgba 0 width height)[4 * i + 1]? = some 255 ∧
    (SaveImage_dst oor pow rgba 0 width height)[4 * i + 2]? = some 255 ∧
    (SaveImage_dst oor pow rgba 0 width height)[4 * i + 3]? = some 255 := by
  have e0 : readFloat rgba (i * 4 + 0) = 1 :=
    readFloat_of_getElem? _ _ _ (by rw [show i * 4 + 0 = 4 * i by omega]; exact hr)
  have e1 : readFloat rgba (i * 4 + 1) = 1 :=
    readFloat_of_getElem? _ _ _ (by rw [show i * 4 + 1 = 4 * i + 1 by omega]; exact hg)
  have e2 : readFloat rgba (i * 4 + 2) = 1 :=
    readFloat_of_getElem? _ _ _ (by rw [show i * 4 + 2 = 4 * i + 2 by omega]; exact hb)
  have h1 := (FloatToUnsignedChar_zero_one oor).2
  have a0 := (SaveImage_dst_getElem? oor pow rgba width height i 0 hi (by norm_num)).1
  have a1 := (SaveImage_dst_getElem? oor pow rgba width height i 1 hi (by norm_num)).1
  have a2 := (SaveImage_dst_getElem? oor pow rgba width height i 2 hi (by norm_num)).1
  have a3 := (SaveImage_dst_getElem? oor pow rgba width height i 3 hi (by norm_num)).1
  rw [show 4 * i = i * 4 + 0 by omega, show i * 4 + 0 + 1 = i * 4 + 1 by omega,
    show i * 4 + 0 + 2 = i * 4 + 2 by omega, show i * 4 + 0 + 3 = i * 4 + 3 by omega,
    a0, a1, a2, a3]
  simp only [pixelByte, e0, e1, e2, h1]
  norm_num

theorem SaveImage_linear_white_witness :
    ([1, 1, 1, 0] : List ℚ).length = 1 * 1 * 4 ∧ 0 < 1 * 1 ∧
    ([1, 1, 1, 0] : List ℚ)[4 * 0]? = some 1 ∧ ([1, 1, 1, 0] : List ℚ)[4 * 0 + 1]? = some 1 ∧
    ([1, 1, 1, 0] : List ℚ)[4 * 0 + 2]? = some 1 ∧
    (SaveImage_dst x86OutOfRange (fun b _ => b) ([1, 1, 1, 0] : List ℚ) 0
      (1 : ℕ) (1 : ℕ))[4 * 0]? = some 255 ∧
    (SaveImage_dst x86OutOfRange (fun b _ => b) ([1, 1, 1, 0] : List ℚ) 0
      (1 : ℕ) (1 : ℕ))[4 * 0 + 1]? = some 255 ∧
    (SaveImage_dst x86OutOfRange (fun b _ => b) ([1, 1, 1, 0] : List ℚ) 0
      (1 : ℕ) (1 : ℕ))[4 * 0 + 2]? = some 255 ∧
    (SaveImage_dst x86OutOfRange (fun b _ => b) ([1, 1, 1, 0] : List ℚ) 0
      (1 : ℕ) (1 : ℕ))[4 * 0 + 3]? = some 255 :=
  ⟨by rfl, by norm_num, by rfl, by rfl, by rfl,
    SaveImage_linear_white x86OutOfRange (fun b _ => b) [1, 1, 1, 0] 1 1 0
      (by rfl) (by norm_num) (by rfl) (by rfl) (by rfl)⟩

end Scenarios

section Black

variable {K : Type} [LinearOrderedField K] [FloorRing K]

/-- The quantiser sends every value of [-1, 0] to 0, whatever the target does out
of range: the conversion of 255·f fits the `int`. -/
theorem FloatToUnsignedChar_of_small_nonpos (oor : K → ℤ) (f : K) (h1 : -1 ≤ f) (h2 : f ≤ 0) :
    FloatToUnsignedChar oor f = 0 := by
  have hr : 255 * f ≤ 0 := by linarith
  have hr1 : (-255 : K) ≤ 255 * f := by linarith
  have ht : truncToInt (255 * f) ≤ 0 ∧ -256 < truncToInt (255 * f) := by
    unfold truncToInt
    split_ifs with h0
    · have hz : 255 * f = 0 := le_antisymm hr h0
      rw [hz, Int.floor_zero]
      omega
    · constructor
      · exact Int.ceil_le.mpr (by exact_mod_cast hr)
      · exact Int.lt_ceil.mpr (by push_cast; linarith)
  have hfit := FloatToUnsignedChar_of_fits oor f (by omega) (by omega)
  have : (FloatToUnsignedChar oor f : ℤ) = 0 := by
    rw [hfit]
    omega
  exact_mod_cast this

/-- The tone map of black: the three channels leave `RRTAndODTFit` with the value
−0.000090537/0.238081 and `ACESFitted` with small negative values. -/
theorem ACESFitted_black :
    RRTAndODTFit (ACESFitted_in (⟨0, 0, 0⟩ : Vector3f K))
      = ⟨-0.000090537 / 0.238081, -0.000090537 / 0.238081, -0.000090537 / 0.238081⟩ ∧
    ACESFitted (⟨0, 0, 0⟩ : Vector3f K)
      = ⟨-90537 / 238081000, -90537 / 238081000, -9053609463 / 23808100000000⟩ := by
  constructor <;>
  norm_num [ACESFitted, ACESFitted_in, ACESFitted_out, RRTAndODTFit, RRTAndODTFit_a,
    RRTAndODTFit_b, Vector3f.mul, Vector3f.addScalar, Vector3f.subScalar, Vector3f.scale]

/-- The sRGB encoding of the tone-mapped black quantises to 0 in every channel. -/
theorem ACES_black_byte (oor : K → ℤ) (pow : K → K → K) (k : ℕ) :
    FloatToUnsignedChar oor
      (ApplysRGBCurve pow ((ACESFitted (⟨0, 0, 0⟩ : Vector3f K)).get k)) = 0 := by
  rw [ACESFitted_black.2]
  have hx : ApplysRGBCurve pow (-90537 / 238081000 : K) = 12.92 * (-90537 / 238081000) := by
    simp only [ApplysRGBCurve]
    rw [if_pos (by norm_num)]
  have hz : ApplysRGBCurve pow (-9053609463 / 23808100000000 : K)
      = 12.92 * (-9053609463 / 23808100000000) := by
    simp only [ApplysRGBCurve]
    rw [if_pos (by norm_num)]
  simp only [Vector3f.get]
  split_ifs
  · rw [hx]
    exact FloatToUnsignedChar_of_small_nonpos oor _ (by norm_num) (by norm_num)
  · rw [hx]
    exact FloatToUnsignedChar_of_small_nonpos oor _ (by norm_num) (by norm_num)
  · rw [hz]
    exact FloatToUnsignedChar_of_small_nonpos oor _ (by norm_num) (by norm_num)

/-- Both transfer curves send 0 to 0. -/
theorem curves_at_zero (pow : K → K → K) :
    ApplysRGBCurve pow 0 = 0 ∧ ApplyRec709Curve pow 0 = 0 := by
  constructor
  · simp only [ApplysRGBCurve]
    rw [if_pos (by norm_num)]
    norm_num
  · simp only [ApplyRec709Curve]
    rw [if_pos (by norm_num)]
    norm_num

/-- C15: black encodes to black: in every mode 0..5 a pixel with linear value
(0, 0, 0) yields the bytes (0, 0, 0, 255); in the three ACES modes each channel leaves
the tone curve with the value −0.000090537/0.238081 and the quantiser clamps the
negative encoded value to 0. -/
theorem SaveImage_black (oor : K → ℤ) (pow : K → K → K) (rgba : List K)
    (colorspace : ℤ) (width height i : ℕ)
    (hmode : 0 ≤ colorspace ∧ colorspace ≤ 5)
    (_hlen : rgba.length = width * height * 4) (hi : i < width * height)
    (hr : rgba[4 * i]? = some 0) (hg : rgba[4 * i + 1]? = some 0)
    (hb : rgba[4 * i + 2]? = some 0) :
    ((SaveImage_dst oor pow rgba colorspace width height)[4 * i]? = some 0 ∧
      (SaveImage_dst oor pow rgba colorspace width height)[4 * i + 1]? = some 0 ∧
      (SaveImage_dst oor pow rgba colorspace width height)[4 * i + 2]? = some 0 ∧
      (SaveImage_dst oor pow rgba colorspace width height)[4 * i + 3]? = some 255) ∧
    RRTAndODTFit (ACESFitted_in (⟨0, 0, 0⟩ : Vector3f K))
      = ⟨-0.000090537 / 0.238081, -0.000090537 / 0.238081, -0.000090537 / 0.238081⟩ := by
  refine ⟨?_, ACESFitted_black.1⟩
  have e0 : readFloat rgba (i * 4 + 0) = 0 :=
    readFloat_of_getElem? _ _ _ (by rw [show i * 4 + 0 = 4 * i by omega]; exact hr)
  have e1 : readFloat rgba (i * 4 + 1) = 0 :=
    readFloat_of_getElem? _ _ _ (by rw [show i * 4 + 1 = 4 * i + 1 by omega]; exact hg)
  have e2 : readFloat rgba (i * 4 + 2) = 0 :=
    readFloat_of_getElem? _ _ _ (by rw [show i * 4 + 2 = 4 * i + 2 by omega]; exact hb)
  have et : pixelTriple rgba i = ⟨0, 0, 0⟩ := by
    simp only [pixelTriple, e0, e1, e2]
  have e0z : readFloat rgba (i * 4) = 0 := e0
  have hq := (FloatToUnsignedChar_zero_one oor).1
  obtain ⟨hs, hc⟩ := curves_at_zero pow
  have key : ∀ c : ℕ, c < 4 →
      (SaveImage_dst oor pow rgba colorspace width height)[i * 4 + c]?
        = some (if c = 3 then 255 else 0) := by
    intro c hc4
    obtain ⟨a0, a1, a2, a3, a4, a5⟩ :=
      SaveImage_dst_getElem? oor pow rgba width height i c hi hc4
    have h4 : c = 0 ∨ c = 1 ∨ c = 2 ∨ c = 3 := by omega
    obtain ⟨hlo, hhi⟩ := hmode
    interval_cases colorspace
    · rw [a0]
      rcases h4 with rfl | rfl | rfl | rfl <;> simp [pixelByte, e0z, e1, e2, hq]
    · rw [a1]
      rcases h4 with rfl | rfl | rfl | rfl <;> simp [pixelByte, e0z, e1, e2, hs, hq]
    · rw [a2]
      rcases h4 with rfl | rfl | rfl | rfl <;> simp [pixelByte, e0z, e1, e2, hc, hq]
    · rw [a3, et]
      rcases h4 with rfl | rfl | rfl | rfl <;> simp [pixelByte, ACES_black_byte]
    · rw [a4, et]
      rcases h4 with rfl | rfl | rfl | rfl <;> simp [pixelByte, ACES_black_byte]
    · rw [a5, et]
      rcases h4 with rfl | rfl | rfl | rfl <;> simp [pixelByte, ACES_black_byte]
  have k0 := key 0 (by norm_num)
  have k1 := key 1 (by norm_num)
  have k2 := key 2 (by norm_num)
  have k3 := key 3 (by norm_num)
  rw [show 4 * i = i * 4 + 0 by omega, show i * 4 + 0 + 1 = i * 4 + 1 by omega,
    show i * 4 + 0 + 2 = i * 4 + 2 by omega, show i * 4 + 0 + 3 = i * 4 + 3 by omega]
  norm_num at k0 k1 k2 k3
  norm_num
  exact ⟨k0, k1, k2, k3⟩

theorem SaveImage_black_witness :
    ((0 : ℤ) ≤ 1 ∧ (1 : ℤ) ≤ 5) ∧
    ([0, 0, 0, 1] : List ℚ).length = 1 * 1 * 4 ∧ 0 < 1 * 1 ∧
    ([0, 0, 0, 1] : List ℚ)[4 * 0]? = some 0 ∧ ([0, 0, 0, 1] : List ℚ)[4 * 0 + 1]? = some 0 ∧
    ([0, 0, 0, 1] : List ℚ)[4 * 0 + 2]? = some 0 ∧
    ((SaveImage_dst x86OutOfRange (fun b _ => b) ([0, 0, 0, 1] : List ℚ) 1
        (1 : ℕ) (1 : ℕ))[4 * 0]? = some 0 ∧
      (SaveImage_dst x86OutOfRange (fun b _ => b) ([0, 0, 0, 1] : List ℚ) 1
        (1 : ℕ) (1 : ℕ))[4 * 0 + 1]? = some 0 ∧
      (SaveImage_dst x86OutOfRange (fun b _ => b) ([0, 0, 0, 1] : List ℚ) 1
        (1 : ℕ) (1 : ℕ))[4 * 0 + 2]? = some 0 ∧
      (SaveImage_dst x86OutOfRange (fun b _ => b) ([0, 0, 0, 1] : List ℚ) 1
        (1 : ℕ) (1 : ℕ))[4 * 0 + 3]? = some 255) ∧
    RRTAndODTFit (ACESFitted_in (⟨0, 0, 0⟩ : Vector3f ℚ))
      = ⟨-0.000090537 / 0.238081, -0.000090537 / 0.238081, -0.000090537 / 0.238081⟩ :=
  ⟨by norm_num, by rfl, by norm_num, by rfl, by rfl, by rfl,
    SaveImage_black x86OutOfRange (fun b _ => b) [0, 0, 0, 1] 1 1 1 0
      (by norm_num) (by rfl) (by norm_num) (by rfl) (by rfl) (by rfl)⟩

end Black

section Behaviour

variable {K : Type} [LinearOrderedField K] [FloorRing K]

/-- C16: each 3×3 stage of `ACESFitted` is a sequential in-place update: with the
rows r1, r2, r3 of its matrix the stage gives x' = r1·(x, y, z), y' = r2·(x', y, z),
z' = r3·(x', y', z); on (1, 0, 0) the input stage gives y' = 0.07600·0.59719, not
0.07600, and its result differs from the matrix-vector product. -/
theorem ACESFitted_stages_sequential (c : Vector3f K) :
    ACESFitted_in c = sequentialStage ⟨0.59719, 0.35458, 0.04823⟩ ⟨0.07600, 0.90834, 0.01566⟩
      ⟨0.02840, 0.13383, 0.83777⟩ c ∧
    ACESFitted_out c = sequentialStage ⟨1.60475, -0.53108, -0.07367⟩
      ⟨-0.10208, 1.10813, -0.00605⟩ ⟨-0.00327, -0.07276, 1.07602⟩ c ∧
    ACESFitted c = ACESFitted_out (RRTAndODTFit (ACESFitted_in c)) ∧
    (ACESFitted_in (⟨1, 0, 0⟩ : Vector3f K)).y = 0.07600 * 0.59719 ∧
    (matVec ⟨0.59719, 0.35458, 0.04823⟩ ⟨0.07600, 0.90834, 0.01566⟩
      ⟨0.02840, 0.13383, 0.83777⟩ (⟨1, 0, 0⟩ : Vector3f K)).y = 0.07600 ∧
    ACESFitted_in (⟨1, 0, 0⟩ : Vector3f K) ≠
      matVec ⟨0.59719, 0.35458, 0.04823⟩ ⟨0.07600, 0.90834, 0.01566⟩
        ⟨0.02840, 0.13383, 0.83777⟩ ⟨1, 0, 0⟩ := by
  refine ⟨?_, ?_, rfl, ?_, ?_, ?_⟩
  · simp only [ACESFitted_in, sequentialStage, dot3, Vector3f.mk.injEq]
    exact ⟨by ring, by ring, by ring⟩
  · simp only [ACESFitted_out, sequentialStage, dot3, Vector3f.mk.injEq]
    exact ⟨by ring, by ring, by ring⟩
  · norm_num [ACESFitted_in]
  · norm_num [matVec, dot3]
  · intro h
    have hy := congrArg Vector3f.y h
    revert hy
    norm_num [ACESFitted_in, matVec, dot3]

/-- C18: for every selector outside 0..5 none of the six blocks of `SaveImage` runs:
the buffer handed to the PNG writer has width·height·4 bytes, all of them 0 (alpha
included), and the value `SaveImage` returns is whether the writer reported
success. -/
theorem SaveImage_invalid_selector_zero_buffer (stbi_write_png : PngCall → ℤ) (oor : K → ℤ)
    (pow : K → K → K) (filename : String) (rgba : List K) (colorspace : ℤ)
    (width height i c : ℕ) (hs : colorspace < 0 ∨ 5 < colorspace)
    (hi : i < width * height) (hc : c < 4) :
    SaveImage stbi_write_png oor pow filename rgba colorspace width height
      = (decide (0 < stbi_write_png
            ⟨filename, width, height, 4, List.replicate (width * height * 4) 0, width * 4⟩),
          [⟨filename, width, height, 4, List.replicate (width * height * 4) 0, width * 4⟩]) ∧
    SaveImage_dst oor pow rgba colorspace width height
      = List.replicate (width * height * 4) 0 ∧
    (SaveImage_dst oor pow rgba colorspace width height).length = width * height * 4 ∧
    (SaveImage_dst oor pow rgba colorspace width height)[4 * i + c]? = some 0 ∧
    (SaveImage_dst oor pow rgba colorspace width height)[4 * i + 3]? = some 0 := by
  have hd : SaveImage_dst oor pow rgba colorspace width height
      = List.replicate (width * height * 4) 0 := by
    rw [SaveImage_dst_of_invalid oor pow rgba colorspace width height hs, (toNat_dims _ _).2]
  refine ⟨?_, hd, ?_, ?_, ?_⟩
  · simp only [SaveImage, hd, gt_iff_lt]
  · rw [hd, List.length_replicate]
  · rw [hd, List.getElem?_replicate, if_pos (by omega)]
  · rw [hd, List.getElem?_replicate, if_pos (by omega)]

theorem SaveImage_invalid_selector_zero_buffer_witness :
    ((7 : ℤ) < 0 ∨ (5 : ℤ) < 7) ∧ 0 < 1 * 1 ∧ 1 < 4 ∧
    SaveImage (fun _ => 1) x86OutOfRange (fun b _ => b) "out.png"
        ([0.18, 0.18, 0.18, 1] : List ℚ) 7 (1 : ℕ) (1 : ℕ)
      = (decide ((0 : ℤ) < 1),
          [⟨"out.png", (1 : ℕ), (1 : ℕ), 4, List.replicate (1 * 1 * 4) 0, (1 : ℕ) * 4⟩]) ∧
    SaveImage_dst x86OutOfRange (fun b _ => b) ([0.18, 0.18, 0.18, 1] : List ℚ) 7
        (1 : ℕ) (1 : ℕ) = List.replicate (1 * 1 * 4) 0 ∧
    (SaveImage_dst x86OutOfRange (fun b _ => b) ([0.18, 0.18, 0.18, 1] : List ℚ) 7
        (1 : ℕ) (1 : ℕ)).length = 1 * 1 * 4 ∧
    (SaveImage_dst x86OutOfRange (fun b _ => b) ([0.18, 0.18, 0.18, 1] : List ℚ) 7
        (1 : ℕ) (1 : ℕ))[4 * 0 + 1]? = some 0 ∧
    (SaveImage_dst x86OutOfRange (fun b _ => b) ([0.18, 0.18, 0.18, 1] : List ℚ) 7
        (1 : ℕ) (1 : ℕ))[4 * 0 + 3]? = some 0 :=
  ⟨by norm_num, by norm_num, by norm_num,
    SaveImage_invalid_selector_zero_buffer (fun _ => 1) x86OutOfRange (fun b _ => b) "out.png"
      [0.18, 0.18, 0.18, 1] 7 1 1 0 1 (by norm_num) (by norm_num) (by norm_num)⟩

end Behaviour

section MidGrey

/-- Value of the sRGB curve at 0.18, between 117/255 and 118/255. -/
theorem sRGB_mid_grey_bounds :
    (117 : ℝ) ≤ 255 * (1.055 * (0.18 : ℝ) ^ ((1.0 : ℝ) / 2.4) - 0.055) ∧
    255 * (1.055 * (0.18 : ℝ) ^ ((1.0 : ℝ) / 2.4) - 0.055) < 118 := by
  have lo : (117 / 255 + 0.055) / 1.055 ≤ (0.18 : ℝ) ^ ((1.0 : ℝ) / 2.4) := by
    rw [sRGB_exponent]
    apply le_rpow_of_pow_le (by norm_num) (by norm_num) 5 12 (by norm_num)
    norm_num
  have hi : (0.18 : ℝ) ^ ((1.0 : ℝ) / 2.4) < (118 / 255 + 0.055) / 1.055 := by
    rw [sRGB_exponent]
    apply rpow_lt_of_pow_lt (by norm_num) (by norm_num) 5 12 (by norm_num)
    norm_num
  rw [div_le_iff₀ (by norm_num)] at lo
  rw [lt_div_iff₀ (by norm_num)] at hi
  constructor <;> linarith

/-- The sRGB encoding of 0.18 quantises to 117, whatever the target does out of
range. -/
theorem sRGB_mid_grey_byte (oor : ℝ → ℤ) :
    truncToInt (255 * (1.055 * (0.18 : ℝ) ^ ((1.0 : ℝ) / 2.4) - 0.055)) = 117 ∧
    FloatToUnsignedChar oor (ApplysRGBCurve Real.rpow 0.18) = 117 := by
  obtain ⟨h1, h2⟩ := sRGB_mid_grey_bounds
  have ht : truncToInt (255 * (1.055 * (0.18 : ℝ) ^ ((1.0 : ℝ) / 2.4) - 0.055)) = 117 := by
    rw [truncToInt, if_pos (by linarith), Int.floor_eq_iff]
    constructor
    · exact_mod_cast h1
    · have : ((117 : ℤ) : ℝ) + 1 = 118 := by norm_num
      rw [this]
      exact h2
  refine ⟨ht, ?_⟩
  rw [ApplysRGBCurve_of_ge _ (by norm_num)]
  have hfit := FloatToUnsignedChar_of_fits oor
    (1.055 * (0.18 : ℝ) ^ ((1.0 : ℝ) / 2.4) - 0.055) (by rw [ht]; norm_num) (by rw [ht]; norm_num)
  rw [ht] at hfit
  have : (FloatToUnsignedChar oor (1.055 * (0.18 : ℝ) ^ ((1.0 : ℝ) / 2.4) - 0.055) : ℤ)
      = 117 := by
    rw [hfit]
    norm_num
  exact_mod_cast this

/-- C13: a 1×1 frame whose pixel is (0.18, 0.18, 0.18), encoded under mode sRGB
(selector 1), yields the colour bytes 117, which lie in the range 116..120, and
alpha 255: the integer truncation of 255·(1.055·0.18^(1/2.4) − 0.055) is 117. -/
theorem SaveImage_sRGB_mid_grey (oor : ℝ → ℤ) (a : ℝ) :
    SaveImage_dst oor Real.rpow [0.18, 0.18, 0.18, a] 1 (1 : ℕ) (1 : ℕ)
      = [117, 117, 117, 255] ∧
    ((116 : ℕ) ≤ 117 ∧ (117 : ℕ) ≤ 120) ∧
    truncToInt (255 * (1.055 * (0.18 : ℝ) ^ ((1 : ℝ) / 2.4) - 0.055)) = 117 ∧
    ((116 : ℤ) ≤ truncToInt (255 * (1.055 * (0.18 : ℝ) ^ ((1 : ℝ) / 2.4) - 0.055)) ∧
      truncToInt (255 * (1.055 * (0.18 : ℝ) ^ ((1 : ℝ) / 2.4) - 0.055)) ≤ 120) := by
  obtain ⟨ht, hb⟩ := sRGB_mid_grey_byte oor
  have e1 : ((1 : ℝ) / 2.4) = ((1.0 : ℝ) / 2.4) := by norm_num
  rw [e1, ht]
  refine ⟨?_, by norm_num, rfl, by norm_num⟩
  have hn : ((1 : ℤ) * 1).toNat = 1 := rfl
  have hn4 : ((1 : ℤ) * 1 * 4).toNat = 4 := rfl
  have hb9 : FloatToUnsignedChar oor (ApplysRGBCurve Real.rpow (9 / 50)) = 117 := by
    rw [show (9 / 50 : ℝ) = 0.18 by norm_num]
    exact hb
  simp only [SaveImage_dst, Nat.cast_one, hn, hn4, forLoop, storePixel, readFloat]
  norm_num [hb9]
  rfl

end MidGrey

section Truncation

variable {K : Type} [LinearOrderedField K] [FloorRing K]

/-- The quantiser never exceeds 255·x on the non-negative values, whatever the
target does out of range. -/
theorem FloatToUnsignedChar_le_scaled (oor : K → ℤ) (x : K) (hx : 0 ≤ x) :
    (FloatToUnsignedChar oor x : K) ≤ 255 * x := by
  have hr : (0 : K) ≤ 255 * x := by linarith
  have ht : truncToInt (255 * x) = ⌊255 * x⌋ := by rw [truncToInt, if_pos hr]
  have hfl : ((⌊255 * x⌋ : ℤ) : K) ≤ 255 * x := Int.floor_le _
  have h0 : 0 ≤ ⌊255 * x⌋ := Int.floor_nonneg.mpr hr
  have hz : (FloatToUnsignedChar oor x : ℤ) ≤ ⌊255 * x⌋ := by
    by_cases hfit : ⌊255 * x⌋ ≤ 2147483647
    · rw [FloatToUnsignedChar_of_fits oor x (by rw [ht]; omega) (by rw [ht]; exact hfit), ht]
      omega
    · have := FloatToUnsignedChar_le oor x
      omega
  have hk : ((FloatToUnsignedChar oor x : ℤ) : K) ≤ ((⌊255 * x⌋ : ℤ) : K) := by
    exact_mod_cast hz
  calc (FloatToUnsignedChar oor x : K) = ((FloatToUnsignedChar oor x : ℤ) : K) := by
        push_cast; rfl
    _ ≤ ((⌊255 * x⌋ : ℤ) : K) := hk
    _ ≤ 255 * x := hfl

/-- The quantiser is the floor of 255·x for 0 ≤ 255·x < 256. -/
theorem FloatToUnsignedChar_eq_floor (oor : K → ℤ) (x : K) (h0 : 0 ≤ 255 * x)
    (h1 : 255 * x < 256) : (FloatToUnsignedChar oor x : ℤ) = ⌊255 * x⌋ := by
  have ht : truncToInt (255 * x) = ⌊255 * x⌋ := by rw [truncToInt, if_pos h0]
  have hn : 0 ≤ ⌊255 * x⌋ := Int.floor_nonneg.mpr h0
  have hu : ⌊255 * x⌋ < 256 := Int.floor_lt.mpr (by exact_mod_cast h1)
  rw [FloatToUnsignedChar_of_fits oor x (by rw [ht]; omega) (by rw [ht]; omega), ht]
  omega

/-- For a conversion that fits the `int`, the truncating quantiser is at most the
round-to-nearest quantisation. -/
theorem FloatToUnsignedChar_le_roundQuantise (oor : K → ℤ) (x : K)
    (hlo : -2147483648 ≤ truncToInt (255 * x)) (hhi : truncToInt (255 * x) ≤ 2147483647) :
    (FloatToUnsignedChar oor x : ℤ) ≤ roundQuantise x := by
  rw [FloatToUnsignedChar_of_fits oor x hlo hhi, roundQuantise]
  have hm : max 0 (truncToInt (255 * x)) ≤ max 0 (round (255 * x)) := by
    unfold truncToInt
    split_ifs with h
    · have hfr : ⌊255 * x⌋ ≤ round (255 * x) := by
        rw [round_eq]
        exact Int.floor_mono (by linarith)
      exact max_le_max le_rfl hfr
    · have hc : ⌈255 * x⌉ ≤ 0 := Int.ceil_le.mpr (by push_cast; linarith)
      rw [max_eq_left hc]
      exact le_max_left _ _
  exact min_le_min le_rfl hm

/-- C17 (code defect): for the input 10^10 the quantiser returns 0 (conversion result
of x86-64) where min(255, max(0, trunc(255·x))) is 255; for 255·x = 117.6 it returns
117 where rounding gives 118. -/
theorem FloatToUnsignedChar_ne_clamped_trunc :
    FloatToUnsignedChar x86OutOfRange (10000000000 : ℚ) = 0 ∧
    min 255 (max 0 (truncToInt (255 * (10000000000 : ℚ)))) = 255 ∧
    FloatToUnsignedChar x86OutOfRange ((117.6 : ℚ) / 255) = 117 ∧
    roundQuantise ((117.6 : ℚ) / 255) = 118 := by
  have ht : truncToInt (255 * (10000000000 : ℚ)) = 2550000000000 := by
    norm_num [truncToInt]
  refine ⟨?_, by rw [ht]; norm_num, ?_, ?_⟩
  · unfold FloatToUnsignedChar static_cast_int
    rw [ht]
    norm_num [x86OutOfRange]
  · norm_num [FloatToUnsignedChar, static_cast_int, truncToInt]
    rfl
  · norm_num [roundQuantise, round_eq]

end Truncation

section FloatOverflowTheorems

open IEEE

/-- A result below the overflow magnitude is finite. -/
theorem IEEE.ofExact_of_abs_lt (T q : ℚ) (h : |q| < T) : IEEE.ofExact T q = IEEE.fin q := by
  obtain ⟨h1, h2⟩ := abs_lt.mp h
  unfold IEEE.ofExact
  rw [if_neg (not_le.mpr h2), if_neg (not_le.mpr h1)]

theorem IEEE.FLT_OVERFLOW_gt : (10 : ℚ) ^ 38 * 3 < IEEE.FLT_OVERFLOW := by
  norm_num [IEEE.FLT_OVERFLOW]

theorem IEEE.DBL_OVERFLOW_gt : (10 : ℚ) ^ 38 * 3 < IEEE.DBL_OVERFLOW := by
  norm_num [IEEE.DBL_OVERFLOW]

/-- The numerator of the tone curve does not overflow for |v| ≤ 10^19. -/
theorem RRTAndODTFit_a_f32_fin (v : ℚ) (hv : |v| ≤ 10 ^ 19) :
    RRTAndODTFit_a_f32 (IEEE.fin v) = IEEE.fin (v * (v + 0.0245786) - 0.000090537) := by
  have hT := IEEE.FLT_OVERFLOW_gt
  obtain ⟨h1, h2⟩ := abs_le.mp hv
  have hs : |v + 0.0245786| ≤ 10 ^ 19 + 1 := by
    rw [abs_le]; constructor <;> linarith
  have hm : |v * (v + 0.0245786)| ≤ 10 ^ 19 * (10 ^ 19 + 1) := by
    rw [abs_mul]
    exact mul_le_mul hv hs (abs_nonneg _) (by norm_num)
  have hd : |v * (v + 0.0245786) - 0.000090537| ≤ 10 ^ 19 * (10 ^ 19 + 1) + 1 := by
    have := abs_sub (v * (v + 0.0245786)) 0.000090537
    have e : |(0.000090537 : ℚ)| ≤ 1 := by rw [abs_le]; constructor <;> norm_num
    linarith
  unfold RRTAndODTFit_a_f32
  simp only [IEEE.sub, IEEE.neg, IEEE.add, IEEE.mul]
  rw [IEEE.ofExact_of_abs_lt _ _ (by linarith)]
  simp only [IEEE.mul]
  rw [IEEE.ofExact_of_abs_lt _ _ (by linarith)]
  simp only [IEEE.add]
  rw [IEEE.ofExact_of_abs_lt _ _ (by rw [← sub_eq_add_neg]; linarith), sub_eq_add_neg]

/-- The denominator of the tone curve does not overflow for |v| ≤ 10^19. -/
theorem RRTAndODTFit_b_f32_fin (v : ℚ) (hv : |v| ≤ 10 ^ 19) :
    RRTAndODTFit_b_f32 (IEEE.fin v)
      = IEEE.fin (v * (0.983729 * v + 0.4329510) + 0.238081) := by
  have hT := IEEE.FLT_OVERFLOW_gt
  obtain ⟨h1, h2⟩ := abs_le.mp hv
  have hp : |0.983729 * v| ≤ 10 ^ 19 := by
    rw [abs_le]; constructor <;> linarith
  have hs : |0.983729 * v + 0.4329510| ≤ 10 ^ 19 + 1 := by
    rw [abs_le]; constructor <;> linarith
  have hm : |v * (0.983729 * v + 0.4329510)| ≤ 10 ^ 19 * (10 ^ 19 + 1) := by
    rw [abs_mul]
    exact mul_le_mul hv hs (abs_nonneg _) (by norm_num)
  have hd : |v * (0.983729 * v + 0.4329510) + 0.238081| ≤ 10 ^ 19 * (10 ^ 19 + 1) + 1 := by
    have := abs_add (v * (0.983729 * v + 0.4329510)) 0.238081
    have e : |(0.238081 : ℚ)| ≤ 1 := by rw [abs_le]; constructor <;> norm_num
    linarith
  unfold RRTAndODTFit_b_f32
  simp only [IEEE.add, IEEE.mul]
  rw [IEEE.ofExact_of_abs_lt _ _ (by linarith)]
  simp only [IEEE.add]
  rw [IEEE.ofExact_of_abs_lt _ _ (by linarith)]
  simp only [IEEE.mul]
  rw [IEEE.ofExact_of_abs_lt _ _ (by linarith)]
  simp only [IEEE.add]
  rw [IEEE.ofExact_of_abs_lt _ _ (by linarith)]

/-- The tone curve is below 2 in magnitude at every value. -/
theorem toneCurve_abs_lt_two (v : ℚ) :
    |(v * (v + 0.0245786) - 0.000090537) / (v * (0.983729 * v + 0.4329510) + 0.238081)| < 2 := by
  have hb := tone_curve_denominator_pos v
  rw [abs_lt]
  constructor
  · rw [lt_div_iff₀ hb]
    nlinarith [sq_nonneg (v + 0.15)]
  · rw [div_lt_iff₀ hb]
    nlinarith [sq_nonneg (v + 0.43)]

/-- One channel of `RRTAndODTFit` in float arithmetic: for |v| ≤ 10^19 nothing
overflows and the result is the quotient of the exact model. -/
theorem RRTAndODTFit_f32_channel (v : ℚ) (hv : |v| ≤ 10 ^ 19) :
    IEEE.div IEEE.FLT_OVERFLOW (RRTAndODTFit_a_f32 (IEEE.fin v)) (RRTAndODTFit_b_f32 (IEEE.fin v))
      = IEEE.fin ((v * (v + 0.0245786) - 0.000090537) /
          (v * (0.983729 * v + 0.4329510) + 0.238081)) := by
  have hb := tone_curve_denominator_pos v
  have hT := IEEE.FLT_OVERFLOW_gt
  rw [RRTAndODTFit_a_f32_fin v hv, RRTAndODTFit_b_f32_fin v hv]
  simp only [IEEE.div]
  rw [if_neg (ne_of_gt hb), IEEE.ofExact_of_abs_lt _ _ (by
    have := toneCurve_abs_lt_two v
    linarith)]

/-- The function `RRTAndODTFit` in float arithmetic agrees with the exact model on
the triples of magnitude at most 10^19. -/
theorem RRTAndODTFit_f32_fin (v : Vector3f ℚ) (hx : |v.x| ≤ 10 ^ 19) (hy : |v.y| ≤ 10 ^ 19)
    (hz : |v.z| ≤ 10 ^ 19) :
    RRTAndODTFit_f32 (finTriple v) = finTriple (RRTAndODTFit v) := by
  simp only [RRTAndODTFit_f32, finTriple, RRTAndODTFit_f32_channel _ hx,
    RRTAndODTFit_f32_channel _ hy, RRTAndODTFit_f32_channel _ hz, RRTAndODTFit,
    RRTAndODTFit_a, RRTAndODTFit_b, Vector3f.mul, Vector3f.addScalar, Vector3f.subScalar,
    Vector3f.scale]

/-- One assignment of a matrix stage on finite components of magnitude at most
10^20 with coefficients of magnitude at most 2: nothing overflows. -/
theorem rowAssign_f32_fin (x y z a b c : ℚ) (hx : |x| ≤ 10 ^ 20) (hy : |y| ≤ 10 ^ 20)
    (hz : |z| ≤ 10 ^ 20) (ha : |a| ≤ 2) (hb : |b| ≤ 2) (hc : |c| ≤ 2) :
    rowAssign_f32 (IEEE.fin x) (IEEE.fin y) (IEEE.fin z) a b c
      = IEEE.fin (x * a + y * b + z * c) := by
  have hT := IEEE.FLT_OVERFLOW_gt
  have hD := IEEE.DBL_OVERFLOW_gt
  have pa : |x * a| ≤ 10 ^ 20 * 2 := by
    rw [abs_mul]; exact mul_le_mul hx ha (abs_nonneg _) (by norm_num)
  have pb : |y * b| ≤ 10 ^ 20 * 2 := by
    rw [abs_mul]; exact mul_le_mul hy hb (abs_nonneg _) (by norm_num)
  have pc : |z * c| ≤ 10 ^ 20 * 2 := by
    rw [abs_mul]; exact mul_le_mul hz hc (abs_nonneg _) (by norm_num)
  have s1 : |x * a + y * b| ≤ 10 ^ 20 * 4 := by
    have := abs_add (x * a) (y * b)
    linarith
  have s2 : |x * a + y * b + z * c| ≤ 10 ^ 20 * 6 := by
    have := abs_add (x * a + y * b) (z * c)
    linarith
  unfold rowAssign_f32
  simp only [IEEE.mul]
  rw [IEEE.ofExact_of_abs_lt _ _ (by linarith), IEEE.ofExact_of_abs_lt _ _ (by linarith),
    IEEE.ofExact_of_abs_lt _ _ (by linarith)]
  simp only [IEEE.add]
  rw [IEEE.ofExact_of_abs_lt _ _ (by linarith)]
  simp only [IEEE.add]
  rw [IEEE.ofExact_of_abs_lt _ _ (by linarith)]
  simp only [IEEE.toFloat]
  rw [IEEE.ofExact_of_abs_lt _ _ (by linarith)]

/-- The input stage keeps the magnitude of the components: the rows of its matrix
are non-negative and sum to 1. -/
theorem ACESFitted_in_bound (v : Vector3f ℚ) (B : ℚ) (hx : |v.x| ≤ B) (hy : |v.y| ≤ B)
    (hz : |v.z| ≤ B) :
    |(ACESFitted_in v).x| ≤ B ∧ |(ACESFitted_in v).y| ≤ B ∧ |(ACESFitted_in v).z| ≤ B := by
  obtain ⟨x1, x2⟩ := abs_le.mp hx
  obtain ⟨y1, y2⟩ := abs_le.mp hy
  obtain ⟨z1, z2⟩ := abs_le.mp hz
  have h1 : |(ACESFitted_in v).x| ≤ B := by
    simp only [ACESFitted_in]
    rw [abs_le]; constructor <;> linarith
  obtain ⟨a1, a2⟩ := abs_le.mp h1
  have h2 : |(ACESFitted_in v).y| ≤ B := by
    simp only [ACESFitted_in] at a1 a2 ⊢
    rw [abs_le]; constructor <;> linarith
  obtain ⟨b1, b2⟩ := abs_le.mp h2
  have h3 : |(ACESFitted_in v).z| ≤ B := by
    simp only [ACESFitted_in] at a1 a2 b1 b2 ⊢
    rw [abs_le]; constructor <;> linarith
  exact ⟨h1, h2, h3⟩

/-- The input stage in floating-point arithmetic agrees with the exact model on
the triples of magnitude at most 10^19. -/
theorem ACESFitted_in_f32_fin (v : Vector3f ℚ) (hx : |v.x| ≤ 10 ^ 19) (hy : |v.y| ≤ 10 ^ 19)
    (hz : |v.z| ≤ 10 ^ 19) :
    ACESFitted_in_f32 (finTriple v) = finTriple (ACESFitted_in v) := by
  obtain ⟨b1, b2, -⟩ := ACESFitted_in_bound v (10 ^ 19) hx hy hz
  have c1 : |(0.59719 : ℚ)| ≤ 2 ∧ |(0.35458 : ℚ)| ≤ 2 ∧ |(0.04823 : ℚ)| ≤ 2 := by
    refine ⟨?_, ?_, ?_⟩ <;> rw [abs_le] <;> constructor <;> norm_num
  have c2 : |(0.07600 : ℚ)| ≤ 2 ∧ |(0.90834 : ℚ)| ≤ 2 ∧ |(0.01566 : ℚ)| ≤ 2 := by
    refine ⟨?_, ?_, ?_⟩ <;> rw [abs_le] <;> constructor <;> norm_num
  have c3 : |(0.02840 : ℚ)| ≤ 2 ∧ |(0.13383 : ℚ)| ≤ 2 ∧ |(0.83777 : ℚ)| ≤ 2 := by
    refine ⟨?_, ?_, ?_⟩ <;> rw [abs_le] <;> constructor <;> norm_num
  simp only [ACESFitted_in] at b1 b2
  simp only [ACESFitted_in_f32, finTriple, ACESFitted_in]
  rw [rowAssign_f32_fin _ _ _ _ _ _ (by linarith) (by linarith) (by linarith) c1.1 c1.2.1 c1.2.2]
  rw [rowAssign_f32_fin _ _ _ _ _ _ (by linarith) (by linarith) (by linarith) c2.1 c2.2.1 c2.2.2]
  rw [rowAssign_f32_fin _ _ _ _ _ _ (by linarith) (by linarith) (by linarith) c3.1 c3.2.1 c3.2.2]

/-- The output stage in floating-point arithmetic agrees with the exact model on
the triples of magnitude at most 2. -/
theorem ACESFitted_out_f32_fin (v : Vector3f ℚ) (hx : |v.x| ≤ 2) (hy : |v.y| ≤ 2)
    (hz : |v.z| ≤ 2) :
    ACESFitted_out_f32 (finTriple v) = finTriple (ACESFitted_out v) := by
  obtain ⟨x1, x2⟩ := abs_le.mp hx
  obtain ⟨y1, y2⟩ := abs_le.mp hy
  obtain ⟨z1, z2⟩ := abs_le.mp hz
  have b1 : |v.x * 1.60475 + v.y * -0.53108 + v.z * -0.07367| ≤ 5 := by
    rw [abs_le]; constructor <;> linarith
  obtain ⟨p1, p2⟩ := abs_le.mp b1
  have b2 : |(v.x * 1.60475 + v.y * -0.53108 + v.z * -0.07367) * -0.10208 + v.y * 1.10813
      + v.z * -0.00605| ≤ 5 := by
    rw [abs_le]; constructor <;> linarith
  have c1 : |(1.60475 : ℚ)| ≤ 2 ∧ |(-0.53108 : ℚ)| ≤ 2 ∧ |(-0.07367 : ℚ)| ≤ 2 := by
    refine ⟨?_, ?_, ?_⟩ <;> rw [abs_le] <;> constructor <;> norm_num
  have c2 : |(-0.10208 : ℚ)| ≤ 2 ∧ |(1.10813 : ℚ)| ≤ 2 ∧ |(-0.00605 : ℚ)| ≤ 2 := by
    refine ⟨?_, ?_, ?_⟩ <;> rw [abs_le] <;> constructor <;> norm_num
  have c3 : |(-0.00327 : ℚ)| ≤ 2 ∧ |(-0.07276 : ℚ)| ≤ 2 ∧ |(1.07602 : ℚ)| ≤ 2 := by
    refine ⟨?_, ?_, ?_⟩ <;> rw [abs_le] <;> constructor <;> norm_num
  simp only [ACESFitted_out_f32, finTriple, ACESFitted_out]
  rw [rowAssign_f32_fin _ _ _ _ _ _ (by linarith) (by linarith) (by linarith) c1.1 c1.2.1 c1.2.2]
  rw [rowAssign_f32_fin _ _ _ _ _ _ (by linarith) (by linarith) (by linarith) c2.1 c2.2.1 c2.2.2]
  rw [rowAssign_f32_fin _ _ _ _ _ _ (by linarith) (by linarith) (by linarith) c3.1 c3.2.1 c3.2.2]

/-- Each component of the exact `RRTAndODTFit` is below 2 in magnitude. -/
theorem RRTAndODTFit_abs_le_two (v : Vector3f ℚ) :
    |(RRTAndODTFit v).x| ≤ 2 ∧ |(RRTAndODTFit v).y| ≤ 2 ∧ |(RRTAndODTFit v).z| ≤ 2 := by
  simp only [RRTAndODTFit, RRTAndODTFit_a, RRTAndODTFit_b, Vector3f.mul, Vector3f.addScalar,
    Vector3f.subScalar, Vector3f.scale]
  exact ⟨(toneCurve_abs_lt_two v.x).le, (toneCurve_abs_lt_two v.y).le,
    (toneCurve_abs_lt_two v.z).le⟩

end FloatOverflowTheorems

section FloatOverflowClaims

/-- C9 (counterexample): at the float 1e20 (= 100000002004087734272) both the
numerator and the denominator of the tone curve overflow to +∞, and `RRTAndODTFit`
and `ACESFitted` return a NaN in every channel. -/
theorem RRTAndODTFit_f32_nan_of_large :
    RRTAndODTFit_a_f32 (IEEE.fin 100000002004087734272) = IEEE.pinf ∧
    RRTAndODTFit_b_f32 (IEEE.fin 100000002004087734272) = IEEE.pinf ∧
    RRTAndODTFit_f32 (finTriple ⟨100000002004087734272, 100000002004087734272,
      100000002004087734272⟩) = ⟨IEEE.nan, IEEE.nan, IEEE.nan⟩ ∧
    ACESFitted_f32 (finTriple ⟨100000002004087734272, 100000002004087734272,
      100000002004087734272⟩) = ⟨IEEE.nan, IEEE.nan, IEEE.nan⟩ := by
  have ha : RRTAndODTFit_a_f32 (IEEE.fin 100000002004087734272) = IEEE.pinf := by
    norm_num [RRTAndODTFit_a_f32, IEEE.sub, IEEE.neg, IEEE.add, IEEE.mul, IEEE.ofExact,
      IEEE.FLT_OVERFLOW]
  have hb : RRTAndODTFit_b_f32 (IEEE.fin 100000002004087734272) = IEEE.pinf := by
    norm_num [RRTAndODTFit_b_f32, IEEE.add, IEEE.mul, IEEE.ofExact, IEEE.FLT_OVERFLOW]
  have hr : RRTAndODTFit_f32 (finTriple ⟨100000002004087734272, 100000002004087734272,
      100000002004087734272⟩) = ⟨IEEE.nan, IEEE.nan, IEEE.nan⟩ := by
    simp only [RRTAndODTFit_f32, finTriple, ha, hb, IEEE.div]
  have hin : ACESFitted_in_f32 (finTriple ⟨100000002004087734272, 100000002004087734272,
      100000002004087734272⟩) = finTriple ⟨100000002004087734272, 100000002004087734272,
      100000002004087734272⟩ := by
    norm_num [ACESFitted_in_f32, rowAssign_f32, finTriple, IEEE.mul, IEEE.add, IEEE.toFloat,
      IEEE.ofExact, IEEE.FLT_OVERFLOW, IEEE.DBL_OVERFLOW]
  refine ⟨ha, hb, hr, ?_⟩
  simp only [ACESFitted_f32, hin, hr, ACESFitted_out_f32, rowAssign_f32, IEEE.mul, IEEE.add,
    IEEE.toFloat]

/-- C9 (amended): for every value v the denominator v·(0.983729·v + 0.432951) +
0.238081 is strictly positive; for every triple whose components have magnitude at
most 10^19 the float evaluation of `RRTAndODTFit` and of `ACESFitted` does not
overflow: each denominator is a finite positive value and the result is a finite
triple, the one of the exact model. -/
theorem RRTAndODTFit_finite_of_bounded (v : Vector3f ℚ) (hx : |v.x| ≤ 10 ^ 19)
    (hy : |v.y| ≤ 10 ^ 19) (hz : |v.z| ≤ 10 ^ 19) :
    (∀ t : ℚ, 0 < t * (0.983729 * t + 0.432951) + 0.238081) ∧
    (RRTAndODTFit_b_f32 (IEEE.fin v.x) = IEEE.fin (RRTAndODTFit_b v).x ∧
      RRTAndODTFit_b_f32 (IEEE.fin v.y) = IEEE.fin (RRTAndODTFit_b v).y ∧
      RRTAndODTFit_b_f32 (IEEE.fin v.z) = IEEE.fin (RRTAndODTFit_b v).z) ∧
    (0 < (RRTAndODTFit_b v).x ∧ 0 < (RRTAndODTFit_b v).y ∧ 0 < (RRTAndODTFit_b v).z) ∧
    RRTAndODTFit_f32 (finTriple v) = finTriple (RRTAndODTFit v) ∧
    (0 < (RRTAndODTFit_b (ACESFitted_in v)).x ∧ 0 < (RRTAndODTFit_b (ACESFitted_in v)).y ∧
      0 < (RRTAndODTFit_b (ACESFitted_in v)).z) ∧
    ACESFitted_f32 (finTriple v) = finTriple (ACESFitted v) := by
  have hpos : ∀ t : ℚ, 0 < t * (0.983729 * t + 0.432951) + 0.238081 := by
    intro t
    have h := tone_curve_denominator_pos t
    norm_num at h ⊢
    exact h
  have hbv : ∀ w : Vector3f ℚ,
      0 < (RRTAndODTFit_b w).x ∧ 0 < (RRTAndODTFit_b w).y ∧ 0 < (RRTAndODTFit_b w).z := by
    intro w
    simp only [RRTAndODTFit_b, Vector3f.mul, Vector3f.addScalar, Vector3f.scale]
    exact ⟨tone_curve_denominator_pos _, tone_curve_denominator_pos _,
      tone_curve_denominator_pos _⟩
  obtain ⟨i1, i2, i3⟩ := ACESFitted_in_bound v (10 ^ 19) hx hy hz
  obtain ⟨r1, r2, r3⟩ := RRTAndODTFit_abs_le_two (ACESFitted_in v)
  refine ⟨hpos, ⟨?_, ?_, ?_⟩, hbv v, RRTAndODTFit_f32_fin v hx hy hz, hbv _, ?_⟩
  · rw [RRTAndODTFit_b_f32_fin _ hx]
    simp only [RRTAndODTFit_b, Vector3f.mul, Vector3f.addScalar, Vector3f.scale]
  · rw [RRTAndODTFit_b_f32_fin _ hy]
    simp only [RRTAndODTFit_b, Vector3f.mul, Vector3f.addScalar, Vector3f.scale]
  · rw [RRTAndODTFit_b_f32_fin _ hz]
    simp only [RRTAndODTFit_b, Vector3f.mul, Vector3f.addScalar, Vector3f.scale]
  · simp only [ACESFitted_f32, ACESFitted]
    rw [ACESFitted_in_f32_fin v hx hy hz, RRTAndODTFit_f32_fin _ i1 i2 i3,
      ACESFitted_out_f32_fin _ r1 r2 r3]

theorem RRTAndODTFit_finite_of_bounded_witness :
    (|(0.18 : ℚ)| ≤ 10 ^ 19 ∧ |(-2 : ℚ)| ≤ 10 ^ 19 ∧ |(10000000000000000000 : ℚ)| ≤ 10 ^ 19) ∧
    RRTAndODTFit_f32 (finTriple ⟨0.18, -2, 10000000000000000000⟩)
      = finTriple (RRTAndODTFit ⟨0.18, -2, 10000000000000000000⟩) ∧
    ACESFitted_f32 (finTriple ⟨0.18, -2, 10000000000000000000⟩)
      = finTriple (ACESFitted ⟨0.18, -2, 10000000000000000000⟩) :=
  ⟨⟨by norm_num [abs_le], by norm_num [abs_le], by norm_num [abs_le]⟩,
    (RRTAndODTFit_finite_of_bounded ⟨0.18, -2, 10000000000000000000⟩
      (by norm_num [abs_le]) (by norm_num [abs_le]) (by norm_num [abs_le])).2.2.2.1,
    (RRTAndODTFit_finite_of_bounded ⟨0.18, -2, 10000000000000000000⟩
      (by norm_num [abs_le]) (by norm_num [abs_le]) (by norm_num [abs_le])).2.2.2.2.2⟩

end FloatOverflowClaims
